import Mathlib

/-!
Shallow embedding of the command/response processing engine of the tabrmd
ResourceManager (src/resource-manager.c) together with proofs about its
special-command virtualisation, quota enforcement and the transient
save/flush protocol.

Conventions of the embedding:
* machine integers (TPM2_HANDLE, TSS2_RC, TPMA_CC, ...) are `Nat`; the only
  arithmetic the embedded code performs on them is the handle-type shift
  `>>> 24` and bit tests, which never overflow;
* the AccessBroker is a parameter (`Broker`): a record of response functions,
  one per access_broker_* entry point used by resource-manager.c.  Every
  embedded function additionally returns the list of broker calls it makes,
  in order, so that theorems can speak about what reached the TPM;
* GObject reference counting, logging and g_debug calls are dropped;
* HandleMapEntry / SessionEntry objects are shared by pointer in C (the
  loaded-transients GSList aliases the entries stored in the HandleMap).
  The embedding keys entries by their handle instead: the loaded-transients
  list stores vhandles and every update is performed in the owning map,
  which is observationally the same because handles are unique keys;
* handle-map.c, session-list.c, tpm2-response.c and the tss2 headers are not
  part of the given source; their entry points are modelled from the spec
  (each such definition says so in its doc comment).  resource-manager.c
  itself is translated line by line.
-/

/-- TPM2_HR_SHIFT from the TSS2 headers: a handle's type is its high byte. -/
def TPM2_HR_SHIFT : Nat := 24

/-- TPM2_HT_TRANSIENT handle-type byte. -/
def TPM2_HT_TRANSIENT : Nat := 0x80

/-- TPM2_HT_HMAC_SESSION handle-type byte. -/
def TPM2_HT_HMAC_SESSION : Nat := 0x02

/-- TPM2_HT_POLICY_SESSION handle-type byte. -/
def TPM2_HT_POLICY_SESSION : Nat := 0x03

/-- TPM2 command code for CreatePrimary. -/
def TPM2_CC_CreatePrimary : Nat := 0x131

/-- TPM2 command code for Load. -/
def TPM2_CC_Load : Nat := 0x157

/-- TPM2 command code for LoadExternal. -/
def TPM2_CC_LoadExternal : Nat := 0x167

/-- TPM2 command code for StartAuthSession. -/
def TPM2_CC_StartAuthSession : Nat := 0x176

/-- TPM2 command code for FlushContext. -/
def TPM2_CC_FlushContext : Nat := 0x165

/-- TPM2 command code for ContextLoad. -/
def TPM2_CC_ContextLoad : Nat := 0x161

/-- TPM2 command code for ContextSave. -/
def TPM2_CC_ContextSave : Nat := 0x162

/-- TPM2 command code for GetCapability. -/
def TPM2_CC_GetCapability : Nat := 0x17A

/-- TPM2_CAP_HANDLES capability selector. -/
def TPM2_CAP_HANDLES : Nat := 0x1

/-- TSS2_RC_SUCCESS. -/
def TSS2_RC_SUCCESS : Nat := 0

/-- TPM2_RC_HANDLE format-one response code. -/
def TPM2_RC_HANDLE : Nat := 0x8B

/-- TPM2_RC_P parameter indicator bit. -/
def TPM2_RC_P : Nat := 0x40

/-- TPM2_RC_1 first-parameter index bits. -/
def TPM2_RC_1 : Nat := 0x100

/-- TPMA_CC_FLUSHED attribute bit (bit 24 of the command attributes). -/
def TPMA_CC_FLUSHED : Nat := 0x1000000

/-- Modelled from the spec: the resource-manager response-code layer added by
the RM_RC macro of tabrmd.h (tabrmd.h is not under src/); its exact value is
irrelevant to the claims, which compare codes symbolically. -/
def TSS2_RESMGR_RC_LAYER : Nat := 11 <<< 16

/-- RM_RC macro of tabrmd.h: tag a response code with the RM layer. -/
def RM_RC (rc : Nat) : Nat := TSS2_RESMGR_RC_LAYER + rc

/-- Modelled from the spec: TSS2_RESMGR_RC_OBJECT_MEMORY, the code returned
when the per-connection transient-object quota is exceeded. -/
def TSS2_RESMGR_RC_OBJECT_MEMORY : Nat := RM_RC 0x102

/-- Modelled from the spec: TSS2_RESMGR_RC_SESSION_MEMORY, the code returned
when the per-connection session quota is exceeded. -/
def TSS2_RESMGR_RC_SESSION_MEMORY : Nat := RM_RC 0x103

/-- HandleMapEntry (handle-map-entry.c, modelled from the spec): virtual
handle, most recent physical handle (0 when not resident) and the saved
context blob. -/
structure HandleMapEntry where
  vhandle : Nat
  phandle : Nat
  context : List Nat
deriving DecidableEq

/-- Modelled from the spec: a per-connection HandleMap (handle-map.c is not
under src/): entries keyed by vhandle, the quota cap, and the monotonic
counter from which fresh vhandles are drawn. -/
structure HandleMap where
  entries : List HandleMapEntry
  cap : Nat
  counter : Nat
deriving DecidableEq

/-- Modelled from the spec: handle_map_vlookup, lookup by virtual handle. -/
def handle_map_vlookup (m : HandleMap) (h : Nat) : Option HandleMapEntry :=
  m.entries.find? (fun e => e.vhandle == h)

/-- Modelled from the spec: handle_map_remove, delete the entry keyed by the
virtual handle. -/
def handle_map_remove (m : HandleMap) (h : Nat) : HandleMap :=
  { m with entries := m.entries.filter (fun e => e.vhandle != h) }

/-- Modelled from the spec: handle_map_is_full, true when the map has reached
the per-connection transient cap. -/
def handle_map_is_full (m : HandleMap) : Bool :=
  decide (m.cap ≤ m.entries.length)

/-- Modelled from the spec: handle_map_insert; the map is keyed by vhandle so
inserting replaces any entry with the same key. -/
def handle_map_insert (m : HandleMap) (v : Nat) (e : HandleMapEntry) : HandleMap :=
  { m with entries := e :: m.entries.filter (fun x => x.vhandle != v) }

/-- Modelled from the spec: handle_map_entry_set_phandle, performed in the
owning map at the entry's key (the C code mutates the shared entry object). -/
def handle_map_set_phandle (m : HandleMap) (v p : Nat) : HandleMap :=
  { m with entries := m.entries.map (fun e => if e.vhandle == v then { e with phandle := p } else e) }

/-- Modelled from the spec: handle_map_entry_set_context, performed in the
owning map at the entry's key. -/
def handle_map_set_context (m : HandleMap) (v : Nat) (c : List Nat) : HandleMap :=
  { m with entries := m.entries.map (fun e => if e.vhandle == v then { e with context := c } else e) }

/-- Modelled from the spec: handle_map_next_vhandle, the monotonic vhandle
allocator: vhandles live in the TRANSIENT range above the counter base. -/
def handle_map_next_vhandle (m : HandleMap) : Nat × HandleMap :=
  ((TPM2_HT_TRANSIENT <<< TPM2_HR_SHIFT) + m.counter, { m with counter := m.counter + 1 })

/-- SessionEntry states, from session-entry.h. -/
inductive SessionEntryState where
  | LOADED
  | SAVED_RM
  | SAVED_CLIENT
  | SAVED_CLIENT_CLOSED
deriving DecidableEq

/-- SessionEntry: session handle, owning connection (an opaque id), state and
the saved context blob that is byte-compared against client ContextLoads. -/
structure SessionEntry where
  handle : Nat
  connection : Nat
  state : SessionEntryState
  context : List Nat
deriving DecidableEq

/-- Modelled from the spec: the SessionList (session-list.c is not under
src/): the active collection, the bounded FIFO of abandoned sessions, and the
per-connection session cap. -/
structure SessionList where
  active : List SessionEntry
  abandoned : List SessionEntry
  sessionCap : Nat
deriving DecidableEq

/-- Modelled from the spec: session_list_lookup_handle searches the active
collection by session handle. -/
def session_list_lookup_handle (sl : SessionList) (h : Nat) : Option SessionEntry :=
  sl.active.find? (fun e => e.handle == h)

/-- Modelled from the spec: session_list_lookup_context_client searches both
collections for an entry whose stored context bytes equal the presented
bytes exactly. -/
def session_list_lookup_context_client (sl : SessionList) (ctx : List Nat) : Option SessionEntry :=
  (sl.active ++ sl.abandoned).find? (fun e => e.context == ctx)

/-- Modelled from the spec: session_list_remove_handle removes the session
from both the active and the abandoned collections. -/
def session_list_remove_handle (sl : SessionList) (h : Nat) : SessionList :=
  ⟨sl.active.filter (fun e => e.handle != h),
   sl.abandoned.filter (fun e => e.handle != h),
   sl.sessionCap⟩

/-- Modelled from the spec: session_list_remove removes the entry (sessions
are identified by their handle, which appears in at most one collection). -/
def session_list_remove (sl : SessionList) (e : SessionEntry) : SessionList :=
  session_list_remove_handle sl e.handle

/-- Modelled from the spec: session_list_is_full, true when the connection
already owns the per-connection cap of live sessions. -/
def session_list_is_full (sl : SessionList) (conn : Nat) : Bool :=
  decide (sl.sessionCap ≤ (sl.active.filter (fun e => e.connection == conn)).length)

/-- Modelled from the spec: session_entry_set_state, performed at the
entry's handle in whichever collection holds it. -/
def session_list_set_state (sl : SessionList) (h : Nat) (s : SessionEntryState) : SessionList :=
  ⟨sl.active.map (fun e => if e.handle == h then { e with state := s } else e),
   sl.abandoned.map (fun e => if e.handle == h then { e with state := s } else e),
   sl.sessionCap⟩

/-- Modelled from the spec: session_entry_set_context, performed at the
entry's handle in whichever collection holds it. -/
def session_list_set_context (sl : SessionList) (h : Nat) (c : List Nat) : SessionList :=
  ⟨sl.active.map (fun e => if e.handle == h then { e with context := c } else e),
   sl.abandoned.map (fun e => if e.handle == h then { e with context := c } else e),
   sl.sessionCap⟩

/-- Modelled from the spec: session_list_insert adds a freshly created entry
to the active collection. -/
def session_list_insert (sl : SessionList) (e : SessionEntry) : SessionList :=
  ⟨e :: sl.active, sl.abandoned, sl.sessionCap⟩

/-- Modelled from the spec: session_list_claim — atomic removal of the entry
from the abandoned FIFO combined with reassignment of the owning connection;
fails (none) when the entry is not in the FIFO. -/
def session_list_claim (sl : SessionList) (e : SessionEntry) (conn : Nat) : Option SessionList :=
  if sl.abandoned.any (fun x => x.handle == e.handle) then
    some ⟨{ e with connection := conn } :: sl.active,
          sl.abandoned.filter (fun x => x.handle != e.handle),
          sl.sessionCap⟩
  else
    none

/-- Equality of Except results is decidable componentwise. -/
instance exceptDecEq {ε α : Type} [DecidableEq ε] [DecidableEq α] :
    DecidableEq (Except ε α) := fun a b =>
  match a, b with
  | Except.error e1, Except.error e2 =>
      if h : e1 = e2 then isTrue (by rw [h]) else isFalse (by intro hc; cases hc; exact h rfl)
  | Except.error _, Except.ok _ => isFalse (by intro hc; cases hc)
  | Except.ok _, Except.error _ => isFalse (by intro hc; cases hc)
  | Except.ok v1, Except.ok v2 =>
      if h : v1 = v2 then isTrue (by rw [h]) else isFalse (by intro hc; cases hc; exact h rfl)

/-- Tpm2Command: the fields of the wire command that resource-manager.c
reads through the tpm2_command_* accessors.  `flushHandleRc` models
tpm2_command_get_flush_handle, `ctxParse` models the
Tss2_MU_TPMS_CONTEXT_Unmarshal of the body (ok carries savedHandle) and
`ctxResidualHandle` is the value left in the stack TPMS_CONTEXT when the
unmarshal fails (the C code reads it regardless). -/
structure Tpm2Command where
  code : Nat
  connection : Nat
  handles : List Nat
  auths : List (Nat × Bool)
  flushHandleRc : Except Nat Nat
  ctxParse : Except Nat Nat
  ctxResidualHandle : Nat
  ctxBytes : List Nat
  cap : Nat
  prop : Nat
  propCount : Nat
  attrs : Nat
deriving DecidableEq

/-- Tpm2Response: the fields resource-manager.c reads or writes.  `handle` is
the (at most one) handle of the response handle area, `body` the bytes after
the header, and `moreData`/`capHandles` the GetCapability payload. -/
structure Tpm2Response where
  connection : Nat
  code : Nat
  handle : Option Nat
  body : List Nat
  moreData : Bool
  capHandles : List Nat
deriving DecidableEq

/-- tpm2_response_new_rc: a synthesised response carrying just a code. -/
def tpm2_response_new_rc (conn rc : Nat) : Tpm2Response :=
  ⟨conn, rc, none, [], false, []⟩

/-- Modelled from the spec: tpm2_response_new_context_save (tpm2-response.c
is not under src/) — a success response whose body is the RM's stored
context bytes for the session, opaque to the client. -/
def tpm2_response_new_context_save (conn : Nat) (e : SessionEntry) : Tpm2Response :=
  ⟨conn, TSS2_RC_SUCCESS, none, e.context, false, []⟩

/-- Modelled from the spec: tpm2_response_new_context_load — a success
response carrying the session handle back to the caller. -/
def tpm2_response_new_context_load (conn h : Nat) : Tpm2Response :=
  ⟨conn, TSS2_RC_SUCCESS, some h, [], false, []⟩

/-- tpm2_command_new_context_load: internal ContextLoad built from a saved
session context (only its code and body are ever inspected). -/
def tpm2_command_new_context_load (ctx : List Nat) : Tpm2Command :=
  ⟨TPM2_CC_ContextLoad, 0, [], [], Except.error 0, Except.error 0, 0, ctx, 0, 0, 0, 0⟩

/-- tpm2_command_new_context_save: internal ContextSave for a session
handle. -/
def tpm2_command_new_context_save (h : Nat) : Tpm2Command :=
  ⟨TPM2_CC_ContextSave, 0, [h], [], Except.error 0, Except.error 0, 0, [], 0, 0, 0, 0⟩

/-- AccessBroker model: one deterministic result function per
access_broker_* entry point used by resource-manager.c.  `send` models
access_broker_send_command (error = transport failure rc), `contextLoad`
models access_broker_context_load (ok = assigned physical handle),
`saveFlush` models access_broker_context_saveflush (ok = saved context) and
`flush` models access_broker_context_flush (the returned rc). -/
structure Broker where
  send : Tpm2Command → Except Nat Tpm2Response
  contextLoad : List Nat → Except Nat Nat
  saveFlush : Nat → Except Nat (List Nat)
  flush : Nat → Nat

/-- One recorded call to the AccessBroker. -/
inductive BrokerCall where
  | send (cmd : Tpm2Command)
  | contextLoad (ctx : List Nat)
  | saveFlush (phandle : Nat)
  | flush (handle : Nat)
deriving DecidableEq

/-- ResourceManager state: the process-wide SessionList and the
per-connection transient HandleMaps (every connection owns one map). -/
structure RMState where
  sessionList : SessionList
  transMaps : Nat → HandleMap

/-- connection_get_trans_map: the transient HandleMap of a connection. -/
def getTransMap (st : RMState) (conn : Nat) : HandleMap :=
  st.transMaps conn

/-- Store back a connection's transient HandleMap. -/
def setTransMap (st : RMState) (conn : Nat) (m : HandleMap) : RMState :=
  { st with transMaps := Function.update st.transMaps conn m }

/-- resource_manager_load_session_from_handle (resource-manager.c:149-214):
refuse to load sessions that are untracked, owned by another connection or
not in state SAVED_RM; otherwise send an internal ContextLoad: on transport
failure remove the session and surface the rc; on success mark it LOADED and
remove it immediately when the command will flush it. -/
def resource_manager_load_session_from_handle (B : Broker) (st : RMState)
    (command_conn handle : Nat) (will_flush : Bool) :
    Nat × RMState × List BrokerCall :=
  match session_list_lookup_handle st.sessionList handle with
  | none => (TSS2_RC_SUCCESS, st, [])
  | some entry =>
    if entry.connection ≠ command_conn then
      (TSS2_RC_SUCCESS, st, [])
    else if entry.state ≠ SessionEntryState.SAVED_RM then
      (TSS2_RC_SUCCESS, st, [])
    else
      let cmd := tpm2_command_new_context_load entry.context
      match B.send cmd with
      | Except.error rc =>
          (rc, { st with sessionList := session_list_remove st.sessionList entry },
           [BrokerCall.send cmd])
      | Except.ok _ =>
          let sl1 := session_list_set_state st.sessionList handle SessionEntryState.LOADED
          let sl2 := if will_flush then session_list_remove_handle sl1 handle else sl1
          (TSS2_RC_SUCCESS, { st with sessionList := sl2 }, [BrokerCall.send cmd])

/-- resource_manager_load_transient together with
resource_manager_virt_to_phys (resource-manager.c:82-138): look the vhandle
up in the connection's map; when present load its context, record the
physical handle in the entry, substitute it at position i of the command
handle area and prepend the entry to the loaded-transients list. -/
def resource_manager_load_transient (B : Broker) (st : RMState) (cmd : Tpm2Command)
    (ts : List Nat) (handle i : Nat) :
    RMState × Tpm2Command × List Nat × List BrokerCall :=
  let map := getTransMap st cmd.connection
  match handle_map_vlookup map handle with
  | none => (st, cmd, ts, [])
  | some entry =>
    match B.contextLoad entry.context with
    | Except.error _ => (st, cmd, ts, [BrokerCall.contextLoad entry.context])
    | Except.ok p =>
        (setTransMap st cmd.connection (handle_map_set_phandle map handle p),
         { cmd with handles := cmd.handles.set i p },
         handle :: ts,
         [BrokerCall.contextLoad entry.context])

/-- Loop body of resource_manager_load_handles (resource-manager.c:256-307):
iterate over the snapshot of the command's handle area, loading transients
and sessions; other handle types are left untouched.  The per-iteration rc
is discarded, as in the C loop. -/
def rm_load_handles_go (B : Broker) :
    RMState → Tpm2Command → Nat → List Nat → List Nat → List BrokerCall →
    RMState × Tpm2Command × List Nat × List BrokerCall
  | st, cmd, _, [], ts, calls => (st, cmd, ts, calls)
  | st, cmd, i, h :: rest, ts, calls =>
    let ht := h >>> TPM2_HR_SHIFT
    if ht = TPM2_HT_TRANSIENT then
      let r := resource_manager_load_transient B st cmd ts h i
      rm_load_handles_go B r.1 r.2.1 (i + 1) rest r.2.2.1 (calls ++ r.2.2.2)
    else if ht = TPM2_HT_HMAC_SESSION ∨ ht = TPM2_HT_POLICY_SESSION then
      let r := resource_manager_load_session_from_handle B st cmd.connection h false
      rm_load_handles_go B r.2.1 cmd (i + 1) rest ts (calls ++ r.2.2)
    else
      rm_load_handles_go B st cmd (i + 1) rest ts calls

/-- resource_manager_load_handles (resource-manager.c:256-307). -/
def resource_manager_load_handles (B : Broker) (st : RMState) (cmd : Tpm2Command) :
    RMState × Tpm2Command × List Nat × List BrokerCall :=
  rm_load_handles_go B st cmd 0 cmd.handles [] []

/-- One step of resource_manager_load_auth_callback
(resource-manager.c:219-250): a session auth handle is loaded with
will_flush set unless CONTINUESESSION is present. -/
def rm_load_auth_step (B : Broker) (conn : Nat) (acc : RMState × List BrokerCall)
    (ab : Nat × Bool) : RMState × List BrokerCall :=
  let ht := ab.1 >>> TPM2_HR_SHIFT
  if ht = TPM2_HT_HMAC_SESSION ∨ ht = TPM2_HT_POLICY_SESSION then
    let r := resource_manager_load_session_from_handle B acc.1 conn ab.1 (!ab.2)
    (r.2.1, acc.2 ++ r.2.2)
  else acc

/-- resource_manager_load_auth_callback folded over the auth area. -/
def rm_load_auths (B : Broker) (st : RMState) (cmd : Tpm2Command) :
    RMState × List BrokerCall :=
  cmd.auths.foldl (rm_load_auth_step B cmd.connection) (st, [])

/-- Steps 3 and 4 of the dispatcher (resource-manager.c:1208-1225): the
handle-area load followed by the auth-area load.  The substituted command is
returned; the load return codes are discarded exactly as in the source. -/
def rm_load_phase (B : Broker) (st : RMState) (cmd : Tpm2Command) :
    RMState × Tpm2Command × List Nat × List BrokerCall :=
  let a := if cmd.handles.length > 0 then resource_manager_load_handles B st cmd
           else (st, cmd, [], [])
  if cmd.auths.isEmpty then a
  else
    let b := rm_load_auths B a.1 a.2.1
    (b.1, a.2.1, a.2.2.1, a.2.2.2 ++ b.2)

/-- resource_manager_flushsave_context (resource-manager.c:314-347): when
the entry's physical handle is in the transient range, saveflush it; on
success store the returned context and zero the phandle, on failure only a
warning is logged and the entry keeps its phandle. -/
def resource_manager_flushsave_context (B : Broker) (st : RMState) (conn v : Nat) :
    RMState × List BrokerCall :=
  let map := getTransMap st conn
  match handle_map_vlookup map v with
  | none => (st, [])
  | some entry =>
    if entry.phandle >>> TPM2_HR_SHIFT = TPM2_HT_TRANSIENT then
      match B.saveFlush entry.phandle with
      | Except.ok ctx =>
          (setTransMap st conn
            (handle_map_set_phandle (handle_map_set_context map v ctx) v 0),
           [BrokerCall.saveFlush entry.phandle])
      | Except.error _ => (st, [BrokerCall.saveFlush entry.phandle])
    else (st, [])

/-- remove_entry_from_handle_map (resource-manager.c:728-751): entries whose
vhandle is in the transient range are removed from the connection's map. -/
def remove_entry_from_handle_map (st : RMState) (conn v : Nat) : RMState :=
  if v >>> TPM2_HR_SHIFT = TPM2_HT_TRANSIENT then
    setTransMap st conn (handle_map_remove (getTransMap st conn) v)
  else st

/-- One step of the g_slist_foreach over the loaded transients with
resource_manager_flushsave_context. -/
def rm_flushsave_step (B : Broker) (conn : Nat) (acc : RMState × List BrokerCall)
    (v : Nat) : RMState × List BrokerCall :=
  let s := resource_manager_flushsave_context B acc.1 conn v
  (s.1, acc.2 ++ s.2)

/-- post_process_loaded_transients (resource-manager.c:757-781): when the
response's FLUSHED attribute is clear, saveflush every loaded transient;
when it is set the TPM already evicted them, so just drop the map entries. -/
def post_process_loaded_transients (B : Broker) (st : RMState) (conn : Nat)
    (command_attrs : Nat) (ts : List Nat) : RMState × List BrokerCall :=
  if command_attrs &&& TPMA_CC_FLUSHED = 0 then
    ts.foldl (rm_flushsave_step B conn) (st, [])
  else
    (ts.foldl (fun acc v => remove_entry_from_handle_map acc conn v) st, [])

/-- resource_manager_save_session_context (resource-manager.c:352-390) for a
single session handle: sessions not LOADED are skipped; otherwise an
internal ContextSave is sent — on success the stored context is overwritten
with the response body and the state becomes SAVED_RM, on failure the TPM
slot is reclaimed with context_flush and the entry is dropped. -/
def rm_save_one (B : Broker) (st : RMState) (h : Nat) : RMState × List BrokerCall :=
  match session_list_lookup_handle st.sessionList h with
  | none => (st, [])
  | some entry =>
    if entry.state ≠ SessionEntryState.LOADED then (st, [])
    else
      let cmd := tpm2_command_new_context_save h
      match B.send cmd with
      | Except.ok resp =>
          let sl1 := session_list_set_context st.sessionList h resp.body
          let sl2 := session_list_set_state sl1 h SessionEntryState.SAVED_RM
          ({ st with sessionList := sl2 }, [BrokerCall.send cmd])
      | Except.error _ =>
          ({ st with sessionList := session_list_remove_handle st.sessionList h },
           [BrokerCall.send cmd, BrokerCall.flush h])

/-- One step of the session_list_foreach that saves loaded sessions. -/
def rm_save_step (B : Broker) (acc : RMState × List BrokerCall) (h : Nat) :
    RMState × List BrokerCall :=
  let s := rm_save_one B acc.1 h
  (s.1, acc.2 ++ s.2)

/-- session_list_foreach with resource_manager_save_session_context
(resource-manager.c:1243-1245): save every loaded session after the
response has been emitted. -/
def rm_save_sessions (B : Broker) (st : RMState) : RMState × List BrokerCall :=
  (st.sessionList.active.map (fun e => e.handle)).foldl (rm_save_step B) (st, [])

/-- resource_manager_flush_context (resource-manager.c:618-681).  TRANSIENT
handles are fully virtualised: drop the mapping and synthesise either a
success response or RM_RC (TPM2_RC_HANDLE + TPM2_RC_P + TPM2_RC_1).  For
session handles the entry is removed from the SessionList and NULL is
returned — the access_broker_send_command that would answer the flush from
the TPM is commented out in the source, so the command falls through to the
generic dispatch path. -/
def resource_manager_flush_context (st : RMState) (cmd : Tpm2Command) :
    Option Tpm2Response × RMState :=
  if cmd.code ≠ TPM2_CC_FlushContext then (none, st)
  else
    match cmd.flushHandleRc with
    | Except.error rc => (some (tpm2_response_new_rc cmd.connection rc), st)
    | Except.ok handle =>
      let ht := handle >>> TPM2_HR_SHIFT
      if ht = TPM2_HT_TRANSIENT then
        let map := getTransMap st cmd.connection
        match handle_map_vlookup map handle with
        | some _ =>
            (some (tpm2_response_new_rc cmd.connection TSS2_RC_SUCCESS),
             setTransMap st cmd.connection (handle_map_remove map handle))
        | none =>
            (some (tpm2_response_new_rc cmd.connection
                     (RM_RC (TPM2_RC_HANDLE + TPM2_RC_P + TPM2_RC_1))), st)
      else if ht = TPM2_HT_HMAC_SESSION ∨ ht = TPM2_HT_POLICY_SESSION then
        (none, { st with sessionList := session_list_remove_handle st.sessionList handle })
      else (none, st)

/-- resource_manager_save_context_session (resource-manager.c:423-458):
sessions unknown to the RM or owned by another connection fall through;
otherwise the state is set to SAVED_CLIENT — with no check of the previous
state — and a ContextSave response carrying the RM's stored bytes is
synthesised. -/
def resource_manager_save_context_session (st : RMState) (cmd : Tpm2Command) :
    Option Tpm2Response × RMState :=
  let handle := cmd.handles.headD 0
  match session_list_lookup_handle st.sessionList handle with
  | none => (none, st)
  | some entry =>
    if entry.connection ≠ cmd.connection then (none, st)
    else
      let sl1 := session_list_set_state st.sessionList handle SessionEntryState.SAVED_CLIENT
      (some (tpm2_response_new_context_save cmd.connection entry),
       { st with sessionList := sl1 })

/-- resource_manager_save_context (resource-manager.c:483-502): only session
handles are virtualised. -/
def resource_manager_save_context (st : RMState) (cmd : Tpm2Command) :
    Option Tpm2Response × RMState :=
  let handle := cmd.handles.headD 0
  let ht := handle >>> TPM2_HR_SHIFT
  if ht = TPM2_HT_HMAC_SESSION ∨ ht = TPM2_HT_POLICY_SESSION then
    resource_manager_save_context_session st cmd
  else (none, st)

/-- resource_manager_load_context_session (resource-manager.c:519-559):
search by exact context bytes; a caller that does not own the entry must
claim it from the abandoned queue, and when the claim fails the function
returns NULL so the command falls through to the TPM; on ownership or a
successful claim the state becomes SAVED_RM and a response carrying the
session handle is synthesised. -/
def resource_manager_load_context_session (st : RMState) (cmd : Tpm2Command) :
    Option Tpm2Response × RMState :=
  match session_list_lookup_context_client st.sessionList cmd.ctxBytes with
  | none => (none, st)
  | some entry =>
    if entry.connection ≠ cmd.connection then
      match session_list_claim st.sessionList entry cmd.connection with
      | none => (none, st)
      | some sl1 =>
          let sl2 := session_list_set_state sl1 entry.handle SessionEntryState.SAVED_RM
          (some (tpm2_response_new_context_load cmd.connection entry.handle),
           { st with sessionList := sl2 })
    else
      let sl2 := session_list_set_state st.sessionList entry.handle SessionEntryState.SAVED_RM
      (some (tpm2_response_new_context_load cmd.connection entry.handle),
       { st with sessionList := sl2 })

/-- resource_manager_load_context (resource-manager.c:564-598): unmarshal the
body as a TPMS_CONTEXT; on failure the source only logs a warning (the
response generation is an unimplemented TODO comment) and execution
continues with whatever value is in the stack structure's savedHandle,
modelled by ctxResidualHandle; only session savedHandles are virtualised. -/
def resource_manager_load_context (st : RMState) (cmd : Tpm2Command) :
    Option Tpm2Response × RMState :=
  let savedHandle :=
    match cmd.ctxParse with
    | Except.ok h => h
    | Except.error _ => cmd.ctxResidualHandle
  let ht := savedHandle >>> TPM2_HR_SHIFT
  if ht = TPM2_HT_HMAC_SESSION ∨ ht = TPM2_HT_POLICY_SESSION then
    resource_manager_load_context_session st cmd
  else (none, st)

/-- State of the GetCapability vhandle iteration
(resource-manager.c:794-829): collected handles and the more-data flag. -/
def vhandle_iterator_callback (prop maxCount : Nat) (s : List Nat × Bool) (v : Nat) :
    List Nat × Bool :=
  if v < prop then s
  else if ¬ (s.1.length < maxCount) then (s.1, true)
  else (s.1 ++ [v], s.2)

/-- get_cap_handles (resource-manager.c:857-886): sort the map's vhandles
ascending and collect those at or above prop, up to count of them, flagging
whether more qualified. -/
def get_cap_handles (m : HandleMap) (prop count : Nat) : List Nat × Bool :=
  let sorted := List.insertionSort (· ≤ ·) (m.entries.map (fun e => e.vhandle))
  sorted.foldl (vhandle_iterator_callback prop count) ([], false)

/-- get_cap_handles_response with build_cap_handles_response
(resource-manager.c:920-980): only GetCapability(HANDLES) over the
TRANSIENT property range is virtualised. -/
def get_cap_handles_response (st : RMState) (cmd : Tpm2Command) : Option Tpm2Response :=
  if cmd.cap = TPM2_CAP_HANDLES ∧ cmd.prop >>> TPM2_HR_SHIFT = TPM2_HT_TRANSIENT then
    let r := get_cap_handles (getTransMap st cmd.connection) cmd.prop cmd.propCount
    some ⟨cmd.connection, TSS2_RC_SUCCESS, none, [], r.2, r.1⟩
  else none

/-- command_special_processing (resource-manager.c:987-1018). -/
def command_special_processing (st : RMState) (cmd : Tpm2Command) :
    Option Tpm2Response × RMState :=
  if cmd.code = TPM2_CC_FlushContext then resource_manager_flush_context st cmd
  else if cmd.code = TPM2_CC_ContextSave then resource_manager_save_context st cmd
  else if cmd.code = TPM2_CC_ContextLoad then resource_manager_load_context st cmd
  else if cmd.code = TPM2_CC_GetCapability then (get_cap_handles_response st cmd, st)
  else (none, st)

/-- create_context_mapping_transient (resource-manager.c:1026-1061):
allocate a fresh vhandle, insert the new entry carrying the TPM's physical
handle, rewrite the response handle, and prepend the entry (twice, as the
source does) to the loaded-transients list. -/
def create_context_mapping_transient (st : RMState) (r : Tpm2Response)
    (ts : List Nat) (phandle : Nat) : Tpm2Response × RMState × List Nat :=
  let map := getTransMap st r.connection
  let nv := handle_map_next_vhandle map
  let entry : HandleMapEntry := ⟨nv.1, phandle, []⟩
  let map2 := handle_map_insert nv.2 nv.1 entry
  ({ r with handle := some nv.1 },
   setTransMap st r.connection map2,
   nv.1 :: nv.1 :: ts)

/-- create_context_mapping_session (resource-manager.c:1092-1120): known
session handles are left alone (a connection mismatch is only warned
about); unknown ones get a fresh LOADED SessionEntry. -/
def create_context_mapping_session (st : RMState) (r : Tpm2Response) (handle : Nat) :
    RMState :=
  match session_list_lookup_handle st.sessionList handle with
  | some _ => st
  | none =>
      let sl1 :=
        session_list_insert st.sessionList
          ⟨handle, r.connection, SessionEntryState.LOADED, []⟩
      { st with sessionList := sl1 }

/-- resource_manager_create_context_mapping (resource-manager.c:1140-1164). -/
def resource_manager_create_context_mapping (st : RMState) (r : Tpm2Response)
    (ts : List Nat) : Tpm2Response × RMState × List Nat :=
  match r.handle with
  | none => (r, st, ts)
  | some h =>
    let ht := h >>> TPM2_HR_SHIFT
    if ht = TPM2_HT_TRANSIENT then
      create_context_mapping_transient st r ts h
    else if ht = TPM2_HT_HMAC_SESSION ∨ ht = TPM2_HT_POLICY_SESSION then
      (r, create_context_mapping_session st r h, ts)
    else (r, st, ts)

/-- resource_manager_quota_check (resource-manager.c:687-722). -/
def resource_manager_quota_check (st : RMState) (cmd : Tpm2Command) : Nat :=
  if cmd.code = TPM2_CC_CreatePrimary ∨ cmd.code = TPM2_CC_Load ∨
     cmd.code = TPM2_CC_LoadExternal then
    if handle_map_is_full (getTransMap st cmd.connection) then
      TSS2_RESMGR_RC_OBJECT_MEMORY
    else TSS2_RC_SUCCESS
  else if cmd.code = TPM2_CC_StartAuthSession then
    if session_list_is_full st.sessionList cmd.connection then
      TSS2_RESMGR_RC_SESSION_MEMORY
    else TSS2_RC_SUCCESS
  else TSS2_RC_SUCCESS

/-- The tail of resource_manager_process_tpm2_command from the send_response
label on (resource-manager.c:1239-1248): emit the response, save every
loaded session, then save-or-drop the loaded transients. -/
def rm_finish (B : Broker) (st : RMState) (cmd : Tpm2Command) (resp : Tpm2Response)
    (ts : List Nat) (calls : List BrokerCall) :
    Tpm2Response × RMState × List BrokerCall :=
  let sv := rm_save_sessions B st
  let pp := post_process_loaded_transients B sv.1 cmd.connection cmd.attrs ts
  (resp, pp.1, calls ++ sv.2 ++ pp.2)

/-- resource_manager_process_tpm2_command (resource-manager.c:1182-1249):
quota check, special processing, context loading, forwarding to the
AccessBroker, response virtualisation, and the post-command save/flush. -/
def resource_manager_process_tpm2_command (B : Broker) (st : RMState)
    (cmd : Tpm2Command) : Tpm2Response × RMState × List BrokerCall :=
  let rcq := resource_manager_quota_check st cmd
  if rcq ≠ TSS2_RC_SUCCESS then
    rm_finish B st cmd (tpm2_response_new_rc cmd.connection rcq) [] []
  else
    match command_special_processing st cmd with
    | (some resp, st1) => rm_finish B st1 cmd resp [] []
    | (none, st1) =>
      let lp := rm_load_phase B st1 cmd
      match B.send lp.2.1 with
      | Except.error rc =>
          rm_finish B lp.1 cmd (tpm2_response_new_rc cmd.connection rc)
            lp.2.2.1 (lp.2.2.2 ++ [BrokerCall.send lp.2.1])
      | Except.ok r =>
          let ccm := resource_manager_create_context_mapping lp.1 r lp.2.2.1
          rm_finish B ccm.2.1 cmd ccm.1 ccm.2.2 (lp.2.2.2 ++ [BrokerCall.send lp.2.1])

/-! ### Generic list lemmas used to reason about the keyed collections -/

/-- find? commutes with a map whose function does not change the predicate. -/
theorem find?_map_congr {α : Type} (g : α → α) (p : α → Bool)
    (hp : ∀ e, p (g e) = p e) :
    ∀ l : List α, (l.map g).find? p = (l.find? p).map g := by
  intro l
  induction l with
  | nil => rfl
  | cons a l ih =>
    by_cases ha : p a = true
    · simp only [List.map_cons]
      rw [List.find?_cons_of_pos _ (by rw [hp]; exact ha),
          List.find?_cons_of_pos _ ha, Option.map_some']
    · have ha' : ¬ p a := by simpa using ha
      simp only [List.map_cons]
      rw [List.find?_cons_of_neg _ (by rw [hp]; simpa using ha'),
          List.find?_cons_of_neg _ ha', ih]

/-- Filtering with a predicate that keeps all hits leaves find? unchanged. -/
theorem find?_filter_imp {α : Type} (p q : α → Bool)
    (h : ∀ e, p e = true → q e = true) :
    ∀ l : List α, (l.filter q).find? p = l.find? p := by
  intro l
  induction l with
  | nil => rfl
  | cons a l ih =>
    by_cases hq : q a = true
    · rw [List.filter_cons_of_pos hq]
      by_cases hpa : p a = true
      · rw [List.find?_cons_of_pos _ hpa, List.find?_cons_of_pos _ hpa]
      · have hpa' : ¬ p a := by simpa using hpa
        rw [List.find?_cons_of_neg _ hpa', List.find?_cons_of_neg _ hpa', ih]
    · have hpa : ¬ p a := by
        intro hc
        exact hq (h a hc)
      rw [List.filter_cons_of_neg (by simpa using hq), List.find?_cons_of_neg _ hpa, ih]

/-- Filtering away every hit of the predicate makes find? fail. -/
theorem find?_filter_none {α : Type} (p q : α → Bool)
    (h : ∀ e, q e = true → p e = false) :
    ∀ l : List α, (l.filter q).find? p = none := by
  intro l
  induction l with
  | nil => rfl
  | cons a l ih =>
    by_cases hq : q a = true
    · rw [List.filter_cons_of_pos hq,
          List.find?_cons_of_neg _ (by simp [h a hq]), ih]
    · rw [List.filter_cons_of_neg (by simpa using hq), ih]

/-! ### SessionList and HandleMap lemmas -/

theorem session_lookup_remove_self (sl : SessionList) (h : Nat) :
    session_list_lookup_handle (session_list_remove_handle sl h) h = none := by
  unfold session_list_lookup_handle session_list_remove_handle
  apply find?_filter_none
  intro e hq
  simp only [bne_iff_ne, ne_eq] at hq
  simp [hq]

theorem session_lookup_remove_other (sl : SessionList) (h h' : Nat) (hne : h ≠ h') :
    session_list_lookup_handle (session_list_remove_handle sl h') h
      = session_list_lookup_handle sl h := by
  unfold session_list_lookup_handle session_list_remove_handle
  apply find?_filter_imp
  intro e he
  have he' : e.handle = h := by simpa using he
  simp [he', hne]

theorem handle_map_vlookup_remove_other (m : HandleMap) (h h' : Nat) (hne : h ≠ h') :
    handle_map_vlookup (handle_map_remove m h') h = handle_map_vlookup m h := by
  unfold handle_map_vlookup handle_map_remove
  apply find?_filter_imp
  intro e he
  have he' : e.vhandle = h := by simpa using he
  simp [he', hne]

theorem session_lookup_set_state (sl : SessionList) (h : Nat) (s : SessionEntryState) :
    session_list_lookup_handle (session_list_set_state sl h s) h
      = (session_list_lookup_handle sl h).map
          (fun e => if e.handle == h then { e with state := s } else e) := by
  unfold session_list_lookup_handle session_list_set_state
  apply find?_map_congr
  intro e
  by_cases he : e.handle = h <;> simp [he]

theorem session_lookup_set_state_other (sl : SessionList) (h h' : Nat)
    (s : SessionEntryState) (hne : h ≠ h') :
    session_list_lookup_handle (session_list_set_state sl h' s) h
      = session_list_lookup_handle sl h := by
  unfold session_list_lookup_handle session_list_set_state
  rw [find?_map_congr (fun e => if e.handle == h' then { e with state := s } else e)
        (fun e => e.handle == h)
        (by intro e; by_cases he : e.handle = h' <;> simp [he]) sl.active]
  cases hl : sl.active.find? (fun e => e.handle == h) with
  | none => rfl
  | some e =>
    have hh : e.handle = h := by simpa using List.find?_some hl
    simp [hh, hne]

theorem session_lookup_set_context_other (sl : SessionList) (h h' : Nat)
    (c : List Nat) (hne : h ≠ h') :
    session_list_lookup_handle (session_list_set_context sl h' c) h
      = session_list_lookup_handle sl h := by
  unfold session_list_lookup_handle session_list_set_context
  rw [find?_map_congr (fun e => if e.handle == h' then { e with context := c } else e)
        (fun e => e.handle == h)
        (by intro e; by_cases he : e.handle = h' <;> simp [he]) sl.active]
  cases hl : sl.active.find? (fun e => e.handle == h) with
  | none => rfl
  | some e =>
    have hh : e.handle = h := by simpa using List.find?_some hl
    simp [hh, hne]

theorem handle_map_vlookup_remove_self (m : HandleMap) (h : Nat) :
    handle_map_vlookup (handle_map_remove m h) h = none := by
  unfold handle_map_vlookup handle_map_remove
  apply find?_filter_none
  intro e hq
  simp only [bne_iff_ne, ne_eq] at hq
  simp [hq]

/-! ### State plumbing lemmas -/

theorem setTransMap_sessionList (st : RMState) (c : Nat) (m : HandleMap) :
    (setTransMap st c m).sessionList = st.sessionList := rfl

theorem getTransMap_setTransMap_same (st : RMState) (c : Nat) (m : HandleMap) :
    getTransMap (setTransMap st c m) c = m := by
  simp [getTransMap, setTransMap]

theorem transMaps_setTransMap_other (st : RMState) (c c' : Nat) (m : HandleMap)
    (hne : c' ≠ c) : (setTransMap st c m).transMaps c' = st.transMaps c' := by
  simp [setTransMap, Function.update_noteq hne]

theorem load_session_transMaps (B : Broker) (st : RMState) (c h : Nat) (w : Bool) :
    (resource_manager_load_session_from_handle B st c h w).2.1.transMaps
      = st.transMaps := by
  unfold resource_manager_load_session_from_handle
  cases session_list_lookup_handle st.sessionList h with
  | none => rfl
  | some e =>
    dsimp only
    split
    · rfl
    · split
      · rfl
      · cases B.send (tpm2_command_new_context_load e.context) with
        | error rc => rfl
        | ok r => rfl

theorem rm_load_auth_step_transMaps (B : Broker) (conn : Nat)
    (acc : RMState × List BrokerCall) (ab : Nat × Bool) :
    (rm_load_auth_step B conn acc ab).1.transMaps = acc.1.transMaps := by
  unfold rm_load_auth_step
  dsimp only
  split
  · exact load_session_transMaps B acc.1 conn ab.1 (!ab.2)
  · rfl

theorem foldl_auth_transMaps (B : Broker) (conn : Nat) :
    ∀ (l : List (Nat × Bool)) (acc : RMState × List BrokerCall),
      ((l.foldl (rm_load_auth_step B conn) acc).1).transMaps = acc.1.transMaps := by
  intro l
  induction l with
  | nil => intro acc; rfl
  | cons a l ih =>
    intro acc
    rw [List.foldl_cons, ih, rm_load_auth_step_transMaps]

theorem rm_load_auths_transMaps (B : Broker) (st : RMState) (cmd : Tpm2Command) :
    (rm_load_auths B st cmd).1.transMaps = st.transMaps :=
  foldl_auth_transMaps B cmd.connection cmd.auths (st, [])

theorem rm_save_one_transMaps (B : Broker) (st : RMState) (h : Nat) :
    (rm_save_one B st h).1.transMaps = st.transMaps := by
  unfold rm_save_one
  cases session_list_lookup_handle st.sessionList h with
  | none => rfl
  | some e =>
    dsimp only
    split
    · rfl
    · cases B.send (tpm2_command_new_context_save h) with
      | error rc => rfl
      | ok r => rfl

theorem rm_save_step_transMaps (B : Broker) (acc : RMState × List BrokerCall) (h : Nat) :
    (rm_save_step B acc h).1.transMaps = acc.1.transMaps :=
  rm_save_one_transMaps B acc.1 h

theorem foldl_save_transMaps (B : Broker) :
    ∀ (l : List Nat) (acc : RMState × List BrokerCall),
      ((l.foldl (rm_save_step B) acc).1).transMaps = acc.1.transMaps := by
  intro l
  induction l with
  | nil => intro acc; rfl
  | cons a l ih =>
    intro acc
    rw [List.foldl_cons, ih, rm_save_step_transMaps]

theorem rm_save_sessions_transMaps (B : Broker) (st : RMState) :
    (rm_save_sessions B st).1.transMaps = st.transMaps :=
  foldl_save_transMaps B _ (st, [])

theorem rm_save_one_sends (B : Broker) (st : RMState) (h : Nat) :
    ∀ c, BrokerCall.send c ∈ (rm_save_one B st h).2 →
      c.code = TPM2_CC_ContextSave := by
  unfold rm_save_one
  cases session_list_lookup_handle st.sessionList h with
  | none => intro c hc; simp at hc
  | some e =>
    dsimp only
    split
    · intro c hc; simp at hc
    · cases B.send (tpm2_command_new_context_save h) with
      | error rc =>
        intro c hc
        simp only [List.mem_cons, List.mem_singleton] at hc
        rcases hc with hc | hc | hc
        · cases hc; rfl
        · cases hc
        · cases hc
      | ok r =>
        intro c hc
        simp only [List.mem_singleton] at hc
        cases hc; rfl

theorem foldl_save_sends (B : Broker) :
    ∀ (l : List Nat) (acc : RMState × List BrokerCall),
      (∀ c, BrokerCall.send c ∈ acc.2 → c.code = TPM2_CC_ContextSave) →
      ∀ c, BrokerCall.send c ∈ (l.foldl (rm_save_step B) acc).2 →
        c.code = TPM2_CC_ContextSave := by
  intro l
  induction l with
  | nil => intro acc hcs; exact hcs
  | cons a l ih =>
    intro acc hcs
    rw [List.foldl_cons]
    apply ih
    intro c hc
    simp only [rm_save_step] at hc
    rcases List.mem_append.mp hc with hc | hc
    · exact hcs c hc
    · exact rm_save_one_sends B acc.1 a c hc

theorem rm_save_sessions_sends (B : Broker) (st : RMState) :
    ∀ c, BrokerCall.send c ∈ (rm_save_sessions B st).2 →
      c.code = TPM2_CC_ContextSave := by
  apply foldl_save_sends
  intro c hc
  simp at hc

theorem post_process_nil (B : Broker) (st : RMState) (conn attrs : Nat) :
    post_process_loaded_transients B st conn attrs [] = (st, []) := by
  unfold post_process_loaded_transients
  split <;> rfl

theorem flushsave_sessionList (B : Broker) (st : RMState) (conn v : Nat) :
    (resource_manager_flushsave_context B st conn v).1.sessionList
      = st.sessionList := by
  cases hv : handle_map_vlookup (getTransMap st conn) v with
  | none => simp [resource_manager_flushsave_context, hv]
  | some e =>
    by_cases hp : e.phandle >>> TPM2_HR_SHIFT = TPM2_HT_TRANSIENT
    · cases hs : B.saveFlush e.phandle with
      | ok ctx =>
          simp [resource_manager_flushsave_context, hv, hp, hs, setTransMap_sessionList]
      | error rc =>
          simp [resource_manager_flushsave_context, hv, hp, hs]
    · simp [resource_manager_flushsave_context, hv, hp]

theorem remove_entry_sessionList (st : RMState) (conn v : Nat) :
    (remove_entry_from_handle_map st conn v).sessionList = st.sessionList := by
  unfold remove_entry_from_handle_map
  split <;> rfl

theorem rm_flushsave_step_sessionList (B : Broker) (conn : Nat)
    (acc : RMState × List BrokerCall) (v : Nat) :
    (rm_flushsave_step B conn acc v).1.sessionList = acc.1.sessionList :=
  flushsave_sessionList B acc.1 conn v

theorem foldl_flushsave_sessionList (B : Broker) (conn : Nat) :
    ∀ (l : List Nat) (acc : RMState × List BrokerCall),
      ((l.foldl (rm_flushsave_step B conn) acc).1).sessionList
        = acc.1.sessionList := by
  intro l
  induction l with
  | nil => intro acc; rfl
  | cons a l ih =>
    intro acc
    rw [List.foldl_cons, ih, rm_flushsave_step_sessionList]

theorem foldl_remove_entry_sessionList (conn : Nat) :
    ∀ (l : List Nat) (st : RMState),
      (l.foldl (fun acc v => remove_entry_from_handle_map acc conn v) st).sessionList
        = st.sessionList := by
  intro l
  induction l with
  | nil => intro st; rfl
  | cons a l ih =>
    intro st
    rw [List.foldl_cons, ih]
    exact remove_entry_sessionList st conn a

theorem post_process_sessionList (B : Broker) (st : RMState) (conn attrs : Nat)
    (ts : List Nat) :
    (post_process_loaded_transients B st conn attrs ts).1.sessionList
      = st.sessionList := by
  unfold post_process_loaded_transients
  split
  · exact foldl_flushsave_sessionList B conn ts (st, [])
  · exact foldl_remove_entry_sessionList conn ts st

theorem rm_finish_resp (B : Broker) (st : RMState) (cmd : Tpm2Command)
    (resp : Tpm2Response) (ts : List Nat) (calls : List BrokerCall) :
    (rm_finish B st cmd resp ts calls).1 = resp := rfl

theorem rm_finish_state (B : Broker) (st : RMState) (cmd : Tpm2Command)
    (resp : Tpm2Response) (ts : List Nat) (calls : List BrokerCall) :
    (rm_finish B st cmd resp ts calls).2.1
      = (post_process_loaded_transients B (rm_save_sessions B st).1
          cmd.connection cmd.attrs ts).1 := rfl

theorem rm_finish_trace (B : Broker) (st : RMState) (cmd : Tpm2Command)
    (resp : Tpm2Response) (ts : List Nat) (calls : List BrokerCall) :
    (rm_finish B st cmd resp ts calls).2.2
      = calls ++ (rm_save_sessions B st).2
          ++ (post_process_loaded_transients B (rm_save_sessions B st).1
                cmd.connection cmd.attrs ts).2 := rfl

/-! ### Preservation of session lookups across the post-command session save -/

theorem rm_save_one_lookup_pres (B : Broker) (st : RMState) (h' h : Nat)
    (e : SessionEntry)
    (hl : session_list_lookup_handle st.sessionList h = some e)
    (hs : e.state ≠ SessionEntryState.LOADED) :
    session_list_lookup_handle (rm_save_one B st h').1.sessionList h = some e := by
  cases hl' : session_list_lookup_handle st.sessionList h' with
  | none => simpa [rm_save_one, hl'] using hl
  | some e' =>
    by_cases hloaded : e'.state = SessionEntryState.LOADED
    · have hne : h ≠ h' := by
        intro heq
        subst heq
        rw [hl] at hl'
        cases hl'
        exact hs hloaded
      cases hsend : B.send (tpm2_command_new_context_save h') with
      | ok r =>
        simp only [rm_save_one, hl', hloaded, ne_eq, not_true_eq_false, if_false, hsend]
        rw [session_lookup_set_state_other _ h h' _ hne,
            session_lookup_set_context_other _ h h' _ hne]
        exact hl
      | error rc =>
        simp only [rm_save_one, hl', hloaded, ne_eq, not_true_eq_false, if_false, hsend]
        rw [session_lookup_remove_other _ h h' hne]
        exact hl
    · simpa [rm_save_one, hl', hloaded] using hl

theorem foldl_save_lookup_pres (B : Broker) :
    ∀ (l : List Nat) (acc : RMState × List BrokerCall) (h : Nat) (e : SessionEntry),
      session_list_lookup_handle acc.1.sessionList h = some e →
      e.state ≠ SessionEntryState.LOADED →
      session_list_lookup_handle ((l.foldl (rm_save_step B) acc).1).sessionList h
        = some e := by
  intro l
  induction l with
  | nil => intro acc h e hl _; exact hl
  | cons a l ih =>
    intro acc h e hl hs
    rw [List.foldl_cons]
    exact ih _ h e (rm_save_one_lookup_pres B acc.1 a h e hl hs) hs

theorem rm_save_sessions_lookup_pres (B : Broker) (st : RMState) (h : Nat)
    (e : SessionEntry)
    (hl : session_list_lookup_handle st.sessionList h = some e)
    (hs : e.state ≠ SessionEntryState.LOADED) :
    session_list_lookup_handle (rm_save_sessions B st).1.sessionList h = some e :=
  foldl_save_lookup_pres B _ (st, []) h e hl hs

theorem rm_save_one_lookup_none (B : Broker) (st : RMState) (h' h : Nat)
    (hl : session_list_lookup_handle st.sessionList h = none) :
    session_list_lookup_handle (rm_save_one B st h').1.sessionList h = none := by
  cases hl' : session_list_lookup_handle st.sessionList h' with
  | none => simpa [rm_save_one, hl'] using hl
  | some e' =>
    by_cases hloaded : e'.state = SessionEntryState.LOADED
    · have hne : h ≠ h' := by
        intro heq
        subst heq
        rw [hl] at hl'
        cases hl'
      cases hsend : B.send (tpm2_command_new_context_save h') with
      | ok r =>
        simp only [rm_save_one, hl', hloaded, ne_eq, not_true_eq_false, if_false, hsend]
        rw [session_lookup_set_state_other _ h h' _ hne,
            session_lookup_set_context_other _ h h' _ hne]
        exact hl
      | error rc =>
        simp only [rm_save_one, hl', hloaded, ne_eq, not_true_eq_false, if_false, hsend]
        rw [session_lookup_remove_other _ h h' hne]
        exact hl
    · simpa [rm_save_one, hl', hloaded] using hl

theorem foldl_save_lookup_none (B : Broker) :
    ∀ (l : List Nat) (acc : RMState × List BrokerCall) (h : Nat),
      session_list_lookup_handle acc.1.sessionList h = none →
      session_list_lookup_handle ((l.foldl (rm_save_step B) acc).1).sessionList h
        = none := by
  intro l
  induction l with
  | nil => intro acc h hl; exact hl
  | cons a l ih =>
    intro acc h hl
    rw [List.foldl_cons]
    exact ih _ h (rm_save_one_lookup_none B acc.1 a h hl)

theorem rm_save_sessions_lookup_none (B : Broker) (st : RMState) (h : Nat)
    (hl : session_list_lookup_handle st.sessionList h = none) :
    session_list_lookup_handle (rm_save_sessions B st).1.sessionList h = none :=
  foldl_save_lookup_none B _ (st, []) h hl

theorem rm_save_one_abandoned (B : Broker) (st : RMState) (h' : Nat) :
    ∀ x ∈ (rm_save_one B st h').1.sessionList.abandoned,
      ∃ y ∈ st.sessionList.abandoned, x.handle = y.handle := by
  cases hl' : session_list_lookup_handle st.sessionList h' with
  | none =>
    intro x hx
    exact ⟨x, by simpa [rm_save_one, hl'] using hx, rfl⟩
  | some e' =>
    by_cases hloaded : e'.state = SessionEntryState.LOADED
    · cases hsend : B.send (tpm2_command_new_context_save h') with
      | ok r =>
        intro x hx
        simp only [rm_save_one, hl', hloaded, ne_eq, not_true_eq_false, if_false,
          hsend, session_list_set_state, session_list_set_context, List.mem_map] at hx
        obtain ⟨y0, ⟨y, hy, hy0⟩, hx0⟩ := hx
        refine ⟨y, hy, ?_⟩
        subst hx0
        subst hy0
        by_cases hcy : y.handle = h' <;> by_cases hcy0 : True <;> simp [hcy]
      | error rc =>
        intro x hx
        simp only [rm_save_one, hl', hloaded, ne_eq, not_true_eq_false, if_false,
          hsend, session_list_remove_handle, List.mem_filter] at hx
        exact ⟨x, hx.1, rfl⟩
    · intro x hx
      exact ⟨x, by simpa [rm_save_one, hl', hloaded] using hx, rfl⟩

theorem foldl_save_abandoned (B : Broker) :
    ∀ (l : List Nat) (acc : RMState × List BrokerCall),
      ∀ x ∈ ((l.foldl (rm_save_step B) acc).1).sessionList.abandoned,
        ∃ y ∈ acc.1.sessionList.abandoned, x.handle = y.handle := by
  intro l
  induction l with
  | nil => intro acc x hx; exact ⟨x, hx, rfl⟩
  | cons a l ih =>
    intro acc x hx
    rw [List.foldl_cons] at hx
    obtain ⟨y, hy, hxy⟩ := ih _ x hx
    obtain ⟨z, hz, hyz⟩ := rm_save_one_abandoned B acc.1 a y hy
    exact ⟨z, hz, hxy.trans hyz⟩

theorem rm_save_sessions_abandoned (B : Broker) (st : RMState) :
    ∀ x ∈ (rm_save_sessions B st).1.sessionList.abandoned,
      ∃ y ∈ st.sessionList.abandoned, x.handle = y.handle :=
  foldl_save_abandoned B _ (st, [])

/-! ### Characterisation of the GetCapability(HANDLES) iteration -/

theorem vhandle_fold_spec (prop maxCount : Nat) :
    ∀ (l acc : List Nat) (m : Bool),
      l.foldl (vhandle_iterator_callback prop maxCount) (acc, m)
        = (acc ++ (l.filter (fun v => decide (prop ≤ v))).take (maxCount - acc.length),
           m || decide (maxCount - acc.length
                  < (l.filter (fun v => decide (prop ≤ v))).length)) := by
  intro l
  induction l with
  | nil => intro acc m; simp
  | cons v l ih =>
    intro acc m
    rw [List.foldl_cons]
    by_cases hv : v < prop
    · have hfv : (fun v => decide (prop ≤ v)) v = false := by
        simp [Nat.not_le.mpr hv]
      have hcb : vhandle_iterator_callback prop maxCount (acc, m) v = (acc, m) := by
        simp [vhandle_iterator_callback, hv]
      rw [hcb, ih, List.filter_cons_of_neg (by simpa using hfv)]
    · have hfil : List.filter (fun v => decide (prop ≤ v)) (v :: l)
          = v :: List.filter (fun v => decide (prop ≤ v)) l := by
        simp [List.filter_cons, Nat.le_of_not_lt hv]
      rw [hfil]
      by_cases hlen : acc.length < maxCount
      · have hcb : vhandle_iterator_callback prop maxCount (acc, m) v = (acc ++ [v], m) := by
          simp [vhandle_iterator_callback, hv, hlen]
        rw [hcb, ih]
        have hk : maxCount - acc.length = (maxCount - (acc.length + 1)) + 1 := by omega
        rw [List.length_append, List.length_singleton, hk, List.take_succ_cons,
            List.append_assoc, List.singleton_append, List.length_cons]
        refine Prod.ext rfl ?_
        dsimp only
        congr 1
        rw [decide_eq_decide]
        omega
      · have hcb : vhandle_iterator_callback prop maxCount (acc, m) v = (acc, true) := by
          simp [vhandle_iterator_callback, hv, hlen]
        rw [hcb, ih]
        have hk : maxCount - acc.length = 0 := by omega
        rw [hk, List.take_zero, List.append_nil, List.take_zero, List.append_nil,
            List.length_cons]
        refine Prod.ext rfl ?_
        dsimp only
        rw [Bool.true_or, show decide (0 < (List.filter (fun v => decide (prop ≤ v)) l).length + 1) = true from by simp, Bool.or_true]

theorem get_cap_handles_spec (m : HandleMap) (prop count : Nat) :
    get_cap_handles m prop count
      = (((List.insertionSort (· ≤ ·) (m.entries.map (fun e => e.vhandle))).filter
            (fun v => decide (prop ≤ v))).take count,
         decide (count <
           ((List.insertionSort (· ≤ ·) (m.entries.map (fun e => e.vhandle))).filter
              (fun v => decide (prop ≤ v))).length)) := by
  unfold get_cap_handles
  rw [vhandle_fold_spec]
  simp

theorem get_cap_handles_sorted (m : HandleMap) (prop count : Nat) :
    List.Sorted (· ≤ ·) (get_cap_handles m prop count).1 := by
  rw [get_cap_handles_spec]
  dsimp only
  have h1 : List.Sorted (· ≤ ·)
      (List.insertionSort (· ≤ ·) (m.entries.map (fun e => e.vhandle))) :=
    List.sorted_insertionSort _ _
  have h2 : List.Sorted (· ≤ ·)
      (List.filter (fun v => decide (prop ≤ v))
        (List.insertionSort (· ≤ ·) (m.entries.map (fun e => e.vhandle)))) :=
    h1.filter _
  exact List.Pairwise.sublist (List.take_sublist _ _) h2

/-! ### Unfolding the dispatcher -/

theorem process_eq_quota_fail (B : Broker) (st : RMState) (cmd : Tpm2Command)
    (hq : resource_manager_quota_check st cmd ≠ TSS2_RC_SUCCESS) :
    resource_manager_process_tpm2_command B st cmd
      = rm_finish B st cmd
          (tpm2_response_new_rc cmd.connection (resource_manager_quota_check st cmd))
          [] [] := by
  simp only [resource_manager_process_tpm2_command]
  rw [if_pos hq]

theorem process_eq_special_some (B : Broker) (st : RMState) (cmd : Tpm2Command)
    (resp : Tpm2Response) (st1 : RMState)
    (hq : resource_manager_quota_check st cmd = TSS2_RC_SUCCESS)
    (hs : command_special_processing st cmd = (some resp, st1)) :
    resource_manager_process_tpm2_command B st cmd = rm_finish B st1 cmd resp [] [] := by
  simp only [resource_manager_process_tpm2_command, hq, ne_eq, not_true_eq_false,
    if_false, hs]

theorem process_eq_send_error (B : Broker) (st : RMState) (cmd : Tpm2Command)
    (st1 : RMState) (rc : Nat)
    (hq : resource_manager_quota_check st cmd = TSS2_RC_SUCCESS)
    (hs : command_special_processing st cmd = (none, st1))
    (hsend : B.send (rm_load_phase B st1 cmd).2.1 = Except.error rc) :
    resource_manager_process_tpm2_command B st cmd
      = rm_finish B (rm_load_phase B st1 cmd).1 cmd
          (tpm2_response_new_rc cmd.connection rc)
          (rm_load_phase B st1 cmd).2.2.1
          ((rm_load_phase B st1 cmd).2.2.2
            ++ [BrokerCall.send (rm_load_phase B st1 cmd).2.1]) := by
  simp only [resource_manager_process_tpm2_command, hq, ne_eq, not_true_eq_false,
    if_false, hs, hsend]

theorem process_eq_send_ok (B : Broker) (st : RMState) (cmd : Tpm2Command)
    (st1 : RMState) (r : Tpm2Response)
    (hq : resource_manager_quota_check st cmd = TSS2_RC_SUCCESS)
    (hs : command_special_processing st cmd = (none, st1))
    (hsend : B.send (rm_load_phase B st1 cmd).2.1 = Except.ok r) :
    resource_manager_process_tpm2_command B st cmd
      = rm_finish B
          (resource_manager_create_context_mapping (rm_load_phase B st1 cmd).1 r
            (rm_load_phase B st1 cmd).2.2.1).2.1
          cmd
          (resource_manager_create_context_mapping (rm_load_phase B st1 cmd).1 r
            (rm_load_phase B st1 cmd).2.2.1).1
          (resource_manager_create_context_mapping (rm_load_phase B st1 cmd).1 r
            (rm_load_phase B st1 cmd).2.2.1).2.2
          ((rm_load_phase B st1 cmd).2.2.2
            ++ [BrokerCall.send (rm_load_phase B st1 cmd).2.1]) := by
  simp only [resource_manager_process_tpm2_command, hq, ne_eq, not_true_eq_false,
    if_false, hs, hsend]

theorem rm_finish_nil_sends (B : Broker) (st : RMState) (cmd : Tpm2Command)
    (resp : Tpm2Response) :
    ∀ c, BrokerCall.send c ∈ (rm_finish B st cmd resp [] []).2.2 →
      c.code = TPM2_CC_ContextSave := by
  intro c hc
  rw [rm_finish_trace, post_process_nil] at hc
  simp only [List.nil_append, List.append_nil] at hc
  exact rm_save_sessions_sends B st c hc

theorem rm_finish_nil_state (B : Broker) (st : RMState) (cmd : Tpm2Command)
    (resp : Tpm2Response) (calls : List BrokerCall) :
    (rm_finish B st cmd resp [] calls).2.1 = (rm_save_sessions B st).1 := by
  rw [rm_finish_state, post_process_nil]

/-! ### Concrete artefacts shared by the witnesses -/

/-- A broker whose send succeeds with a handle-free response, whose context
loads fail and whose saveflushes succeed. -/
def testBroker : Broker :=
  ⟨fun c => Except.ok ⟨c.connection, TSS2_RC_SUCCESS, none, [], false, []⟩,
   fun _ => Except.error 1, fun _ => Except.ok [], fun _ => 0⟩

/-- Transient maps for the witnesses: connection 1 owns one saved entry. -/
def testMaps : Nat → HandleMap :=
  fun c => if c = 1 then ⟨[⟨0x80000001, 0, [5]⟩], 3, 2⟩ else ⟨[], 3, 1⟩

/-- Witness state: no sessions, connection 1 owns one transient entry. -/
def testSt : RMState := ⟨⟨[], [], 2⟩, testMaps⟩

/-- C1: a FlushContext command whose target handle (taken from the command
body) is of type TRANSIENT is never forwarded to the AccessBroker (every
send in the broker trace is an internal ContextSave from the between-command
session save): if the vhandle is mapped in the calling connection's
HandleMap the entry is removed and a success response is synthesised, and
otherwise a response with code RM_RC (RC_HANDLE ||| RC_P ||| RC_1) is
synthesised. -/
theorem C1_flush_transient (B : Broker) (st : RMState) (cmd : Tpm2Command) (h : Nat)
    (hc : cmd.code = TPM2_CC_FlushContext)
    (hf : cmd.flushHandleRc = Except.ok h)
    (ht : h >>> TPM2_HR_SHIFT = TPM2_HT_TRANSIENT) :
    (∀ c, BrokerCall.send c ∈ (resource_manager_process_tpm2_command B st cmd).2.2 →
        c.code = TPM2_CC_ContextSave)
    ∧ (match handle_map_vlookup (getTransMap st cmd.connection) h with
       | some _ =>
           (resource_manager_process_tpm2_command B st cmd).1
             = tpm2_response_new_rc cmd.connection TSS2_RC_SUCCESS
           ∧ handle_map_vlookup
               (getTransMap (resource_manager_process_tpm2_command B st cmd).2.1
                 cmd.connection) h = none
       | none =>
           (resource_manager_process_tpm2_command B st cmd).1
             = tpm2_response_new_rc cmd.connection
                 (RM_RC (TPM2_RC_HANDLE ||| TPM2_RC_P ||| TPM2_RC_1))) := by
  have hq : resource_manager_quota_check st cmd = TSS2_RC_SUCCESS := by
    simp [resource_manager_quota_check, hc, TPM2_CC_FlushContext, TPM2_CC_CreatePrimary,
      TPM2_CC_Load, TPM2_CC_LoadExternal, TPM2_CC_StartAuthSession]
  cases hv : handle_map_vlookup (getTransMap st cmd.connection) h with
  | some e =>
    have hs : command_special_processing st cmd
        = (some (tpm2_response_new_rc cmd.connection TSS2_RC_SUCCESS),
           setTransMap st cmd.connection
             (handle_map_remove (getTransMap st cmd.connection) h)) := by
      simp [command_special_processing, hc, resource_manager_flush_context, hf, ht, hv]
    rw [process_eq_special_some B st cmd _ _ hq hs]
    refine ⟨rm_finish_nil_sends B _ cmd _, ?_, ?_⟩
    · rw [rm_finish_resp]
    · rw [rm_finish_nil_state]
      have h1 : getTransMap (rm_save_sessions B
          (setTransMap st cmd.connection
            (handle_map_remove (getTransMap st cmd.connection) h))).1 cmd.connection
          = handle_map_remove (getTransMap st cmd.connection) h := by
        simp only [getTransMap, rm_save_sessions_transMaps]
        exact getTransMap_setTransMap_same st cmd.connection _
      rw [h1]
      exact handle_map_vlookup_remove_self _ h
  | none =>
    have hs : command_special_processing st cmd
        = (some (tpm2_response_new_rc cmd.connection
            (RM_RC (TPM2_RC_HANDLE + TPM2_RC_P + TPM2_RC_1))), st) := by
      simp [command_special_processing, hc, resource_manager_flush_context, hf, ht, hv]
    rw [process_eq_special_some B st cmd _ _ hq hs]
    refine ⟨rm_finish_nil_sends B _ cmd _, ?_⟩
    rw [rm_finish_resp]
    have hrc : TPM2_RC_HANDLE + TPM2_RC_P + TPM2_RC_1
        = TPM2_RC_HANDLE ||| TPM2_RC_P ||| TPM2_RC_1 := by decide
    rw [hrc]

/-- Command used by the C1 witness: FlushContext on the mapped transient
vhandle 0x80000001 of connection 1. -/
def C1cmd : Tpm2Command :=
  ⟨TPM2_CC_FlushContext, 1, [], [], Except.ok 0x80000001, Except.error 0, 0, [],
   0, 0, 0, 0⟩

/-- Witness for C1 at a concrete state where the vhandle is mapped. -/
theorem C1_flush_transient_witness :
    (∀ c, BrokerCall.send c ∈
        (resource_manager_process_tpm2_command testBroker testSt C1cmd).2.2 →
      c.code = TPM2_CC_ContextSave)
    ∧ (match handle_map_vlookup (getTransMap testSt C1cmd.connection) 0x80000001 with
       | some _ =>
           (resource_manager_process_tpm2_command testBroker testSt C1cmd).1
             = tpm2_response_new_rc C1cmd.connection TSS2_RC_SUCCESS
           ∧ handle_map_vlookup
               (getTransMap (resource_manager_process_tpm2_command testBroker testSt C1cmd).2.1
                 C1cmd.connection) 0x80000001 = none
       | none =>
           (resource_manager_process_tpm2_command testBroker testSt C1cmd).1
             = tpm2_response_new_rc C1cmd.connection
                 (RM_RC (TPM2_RC_HANDLE ||| TPM2_RC_P ||| TPM2_RC_1))) :=
  C1_flush_transient testBroker testSt C1cmd 0x80000001 rfl rfl (by decide)

/-- C2: a CreatePrimary, Load or LoadExternal received while the calling
connection's transient HandleMap is full is answered with
TSS2_RESMGR_RC_OBJECT_MEMORY, and a StartAuthSession received while the
connection's live session count is at the per-connection cap is answered
with TSS2_RESMGR_RC_SESSION_MEMORY; in both cases the client command is
never sent to the AccessBroker (every send in the trace is an internal
ContextSave). -/
theorem C2_quota_reject (B : Broker) (st : RMState) (cmd : Tpm2Command) (rc : Nat)
    (hcase :
      ((cmd.code = TPM2_CC_CreatePrimary ∨ cmd.code = TPM2_CC_Load ∨
          cmd.code = TPM2_CC_LoadExternal)
        ∧ handle_map_is_full (getTransMap st cmd.connection) = true
        ∧ rc = TSS2_RESMGR_RC_OBJECT_MEMORY)
      ∨ (cmd.code = TPM2_CC_StartAuthSession
        ∧ session_list_is_full st.sessionList cmd.connection = true
        ∧ rc = TSS2_RESMGR_RC_SESSION_MEMORY)) :
    (resource_manager_process_tpm2_command B st cmd).1
        = tpm2_response_new_rc cmd.connection rc
    ∧ ∀ c, BrokerCall.send c ∈ (resource_manager_process_tpm2_command B st cmd).2.2 →
        c.code = TPM2_CC_ContextSave := by
  have hq : resource_manager_quota_check st cmd = rc := by
    rcases hcase with ⟨hcode, hfull, hrc⟩ | ⟨hcode, hfull, hrc⟩
    · unfold resource_manager_quota_check
      rw [if_pos hcode, if_pos hfull, hrc]
    · rcases hcode with hcode
      simp [resource_manager_quota_check, hcode, hfull, hrc, TPM2_CC_CreatePrimary,
        TPM2_CC_Load, TPM2_CC_LoadExternal, TPM2_CC_StartAuthSession]
  have hrc0 : rc ≠ TSS2_RC_SUCCESS := by
    rcases hcase with ⟨_, _, hrc⟩ | ⟨_, _, hrc⟩ <;> subst hrc <;> decide
  have heq := process_eq_quota_fail B st cmd (by rw [hq]; exact hrc0)
  rw [hq] at heq
  rw [heq]
  exact ⟨rm_finish_resp B st cmd _ [] [], rm_finish_nil_sends B st cmd _⟩

/-- Command used by the C2 witness: a CreatePrimary from connection 1. -/
def C2cmd : Tpm2Command :=
  ⟨TPM2_CC_CreatePrimary, 1, [], [], Except.error 0, Except.error 0, 0, [],
   0, 0, 0, 0⟩

/-- Witness state for C2: connection 1's transient map is full (cap 1). -/
def C2st : RMState :=
  ⟨⟨[], [], 2⟩, fun c => if c = 1 then ⟨[⟨0x80000001, 0, []⟩], 1, 2⟩ else ⟨[], 3, 1⟩⟩

/-- Witness for C2 at a concrete full-map state. -/
theorem C2_quota_reject_witness :
    ((C2cmd.code = TPM2_CC_CreatePrimary ∨ C2cmd.code = TPM2_CC_Load ∨
        C2cmd.code = TPM2_CC_LoadExternal)
      ∧ handle_map_is_full (getTransMap C2st C2cmd.connection) = true
      ∧ TSS2_RESMGR_RC_OBJECT_MEMORY = TSS2_RESMGR_RC_OBJECT_MEMORY)
    ∧ ((resource_manager_process_tpm2_command testBroker C2st C2cmd).1
        = tpm2_response_new_rc C2cmd.connection TSS2_RESMGR_RC_OBJECT_MEMORY
      ∧ ∀ c, BrokerCall.send c ∈
          (resource_manager_process_tpm2_command testBroker C2st C2cmd).2.2 →
            c.code = TPM2_CC_ContextSave) :=
  ⟨⟨Or.inl rfl, by decide, rfl⟩,
   C2_quota_reject testBroker C2st C2cmd TSS2_RESMGR_RC_OBJECT_MEMORY
     (Or.inl ⟨Or.inl rfl, by decide, rfl⟩)⟩

/-- Specification-side description of the vhandles a
GetCapability(HANDLES, TRANSIENT) must enumerate: the caller's vhandles
sorted ascending with those below prop dropped. -/
def qualifying_vhandles (m : HandleMap) (prop : Nat) : List Nat :=
  (List.insertionSort (· ≤ ·) (m.entries.map (fun e => e.vhandle))).filter
    (fun v => decide (prop ≤ v))

/-- C7: a GetCapability with capability HANDLES and property in the
TRANSIENT range is answered locally with a success response that enumerates
exactly the caller's qualifying vhandles (those at or above prop) in
ascending order, truncated to at most propCount entries, with moreData set
exactly when more qualifying vhandles exist than the count cap; the client
command is never sent to the AccessBroker. -/
theorem C7_get_cap_handles (B : Broker) (st : RMState) (cmd : Tpm2Command)
    (hc : cmd.code = TPM2_CC_GetCapability)
    (hcap : cmd.cap = TPM2_CAP_HANDLES)
    (hprop : cmd.prop >>> TPM2_HR_SHIFT = TPM2_HT_TRANSIENT) :
    (resource_manager_process_tpm2_command B st cmd).1
      = ⟨cmd.connection, TSS2_RC_SUCCESS, none, [],
         decide (cmd.propCount
           < (qualifying_vhandles (getTransMap st cmd.connection) cmd.prop).length),
         (qualifying_vhandles (getTransMap st cmd.connection) cmd.prop).take
           cmd.propCount⟩
    ∧ List.Sorted (· ≤ ·)
        ((resource_manager_process_tpm2_command B st cmd).1).capHandles
    ∧ (∀ c, BrokerCall.send c ∈ (resource_manager_process_tpm2_command B st cmd).2.2 →
        c.code = TPM2_CC_ContextSave) := by
  have hq : resource_manager_quota_check st cmd = TSS2_RC_SUCCESS := by
    simp [resource_manager_quota_check, hc, TPM2_CC_GetCapability, TPM2_CC_CreatePrimary,
      TPM2_CC_Load, TPM2_CC_LoadExternal, TPM2_CC_StartAuthSession]
  have hs : command_special_processing st cmd
      = (some ⟨cmd.connection, TSS2_RC_SUCCESS, none, [],
          (get_cap_handles (getTransMap st cmd.connection) cmd.prop cmd.propCount).2,
          (get_cap_handles (getTransMap st cmd.connection) cmd.prop cmd.propCount).1⟩,
         st) := by
    simp [command_special_processing, hc, get_cap_handles_response, hcap, hprop,
      TPM2_CC_GetCapability, TPM2_CC_FlushContext, TPM2_CC_ContextSave,
      TPM2_CC_ContextLoad]
  rw [process_eq_special_some B st cmd _ _ hq hs]
  refine ⟨?_, ?_, rm_finish_nil_sends B st cmd _⟩
  · rw [rm_finish_resp, get_cap_handles_spec]
    simp [qualifying_vhandles]
  · rw [rm_finish_resp]
    exact get_cap_handles_sorted _ _ _

/-- Command used by the C7 witness: GetCapability(HANDLES, TRANSIENT) with
prop 0x80000000 and count 2 from connection 1. -/
def C7cmd : Tpm2Command :=
  ⟨TPM2_CC_GetCapability, 1, [], [], Except.error 0, Except.error 0, 0, [],
   TPM2_CAP_HANDLES, 0x80000000, 2, 0⟩

/-- Witness for C7 at a concrete state. -/
theorem C7_get_cap_handles_witness :
    (resource_manager_process_tpm2_command testBroker testSt C7cmd).1
      = ⟨C7cmd.connection, TSS2_RC_SUCCESS, none, [],
         decide (C7cmd.propCount
           < (qualifying_vhandles (getTransMap testSt C7cmd.connection) C7cmd.prop).length),
         (qualifying_vhandles (getTransMap testSt C7cmd.connection) C7cmd.prop).take
           C7cmd.propCount⟩
    ∧ List.Sorted (· ≤ ·)
        ((resource_manager_process_tpm2_command testBroker testSt C7cmd).1).capHandles
    ∧ (∀ c, BrokerCall.send c ∈
        (resource_manager_process_tpm2_command testBroker testSt C7cmd).2.2 →
          c.code = TPM2_CC_ContextSave) :=
  C7_get_cap_handles testBroker testSt C7cmd rfl rfl (by decide)

/-- C10: a ContextSave on a session handle whose session is tracked and
owned by the calling connection transitions the session to SAVED_CLIENT and
synthesises the ContextSave response carrying the RM's stored bytes, with no
hypothesis about the session's prior state: the transition and the
synthesised success response happen whatever that state was (SAVED_RM,
LOADED or already SAVED_CLIENT), so a repeated ContextSave by the owner is
accepted and leaves the state SAVED_CLIENT. -/
theorem C10_save_context_session (B : Broker) (st : RMState) (cmd : Tpm2Command)
    (h : Nat) (entry : SessionEntry)
    (hc : cmd.code = TPM2_CC_ContextSave)
    (hh : cmd.handles.headD 0 = h)
    (ht : h >>> TPM2_HR_SHIFT = TPM2_HT_HMAC_SESSION ∨
          h >>> TPM2_HR_SHIFT = TPM2_HT_POLICY_SESSION)
    (hl : session_list_lookup_handle st.sessionList h = some entry)
    (hconn : entry.connection = cmd.connection) :
    (resource_manager_process_tpm2_command B st cmd).1
        = tpm2_response_new_context_save cmd.connection entry
    ∧ session_list_lookup_handle
        (resource_manager_process_tpm2_command B st cmd).2.1.sessionList h
        = some { entry with state := SessionEntryState.SAVED_CLIENT } := by
  have hq : resource_manager_quota_check st cmd = TSS2_RC_SUCCESS := by
    simp [resource_manager_quota_check, hc, TPM2_CC_ContextSave, TPM2_CC_CreatePrimary,
      TPM2_CC_Load, TPM2_CC_LoadExternal, TPM2_CC_StartAuthSession]
  have hh' : cmd.handles.head?.getD 0 = h := by simpa using hh
  have hs : command_special_processing st cmd
      = (some (tpm2_response_new_context_save cmd.connection entry),
         { st with sessionList :=
             session_list_set_state st.sessionList h SessionEntryState.SAVED_CLIENT }) := by
    simp [command_special_processing, resource_manager_save_context,
      resource_manager_save_context_session, hc, hh', hl, hconn, ht,
      TPM2_CC_ContextSave, TPM2_CC_FlushContext]
  rw [process_eq_special_some B st cmd _ _ hq hs]
  have hhandle : entry.handle = h := by simpa using List.find?_some hl
  have hl1 : session_list_lookup_handle
      (session_list_set_state st.sessionList h SessionEntryState.SAVED_CLIENT) h
      = some { entry with state := SessionEntryState.SAVED_CLIENT } := by
    rw [session_lookup_set_state, hl, Option.map_some']
    simp [hhandle]
  refine ⟨rm_finish_resp B _ cmd _ [] [], ?_⟩
  rw [rm_finish_nil_state]
  exact rm_save_sessions_lookup_pres B _ h _ hl1 (by simp)

/-- Command used by the C10 witness: ContextSave on session handle
0x03000000 from connection 1. -/
def C10cmd : Tpm2Command :=
  ⟨TPM2_CC_ContextSave, 1, [0x03000000], [], Except.error 0, Except.error 0, 0, [],
   0, 0, 0, 0⟩

/-- Witness state for C10: the session is already in SAVED_CLIENT, so the
witness exercises a repeated ContextSave by the owner. -/
def C10st : RMState :=
  ⟨⟨[⟨0x03000000, 1, SessionEntryState.SAVED_CLIENT, [9, 9]⟩], [], 2⟩, testMaps⟩

/-- Witness for C10 at a concrete state (repeated ContextSave accepted). -/
theorem C10_save_context_session_witness :
    (resource_manager_process_tpm2_command testBroker C10st C10cmd).1
        = tpm2_response_new_context_save C10cmd.connection
            ⟨0x03000000, 1, SessionEntryState.SAVED_CLIENT, [9, 9]⟩
    ∧ session_list_lookup_handle
        (resource_manager_process_tpm2_command testBroker C10st C10cmd).2.1.sessionList
        0x03000000
        = some ⟨0x03000000, 1, SessionEntryState.SAVED_CLIENT, [9, 9]⟩ :=
  C10_save_context_session testBroker C10st C10cmd 0x03000000
    ⟨0x03000000, 1, SessionEntryState.SAVED_CLIENT, [9, 9]⟩
    rfl rfl (by decide) rfl rfl

/-- C8: resource_manager_load_session_from_handle refuses to load — leaving
the state untouched and making no broker call — when the session's owning
connection differs from the caller or its state is not SAVED_RM; when it
does load, a failure of the internal ContextLoad removes the session from
the SessionList and surfaces the rc, while on success the state becomes
LOADED, the session being removed immediately when will_flush is set. -/
theorem C8_load_session_from_handle (B : Broker) (st : RMState) (conn h : Nat)
    (wf : Bool) (entry : SessionEntry)
    (hl : session_list_lookup_handle st.sessionList h = some entry) :
    (entry.connection ≠ conn →
      resource_manager_load_session_from_handle B st conn h wf
        = (TSS2_RC_SUCCESS, st, []))
    ∧ (entry.connection = conn → entry.state ≠ SessionEntryState.SAVED_RM →
      resource_manager_load_session_from_handle B st conn h wf
        = (TSS2_RC_SUCCESS, st, []))
    ∧ (entry.connection = conn → entry.state = SessionEntryState.SAVED_RM →
      (∀ rc, B.send (tpm2_command_new_context_load entry.context) = Except.error rc →
        (resource_manager_load_session_from_handle B st conn h wf).1 = rc
        ∧ session_list_lookup_handle
            (resource_manager_load_session_from_handle B st conn h wf).2.1.sessionList h
            = none)
      ∧ (∀ r, B.send (tpm2_command_new_context_load entry.context) = Except.ok r →
        (resource_manager_load_session_from_handle B st conn h wf).1 = TSS2_RC_SUCCESS
        ∧ session_list_lookup_handle
            (resource_manager_load_session_from_handle B st conn h wf).2.1.sessionList h
            = (if wf then none
               else some { entry with state := SessionEntryState.LOADED }))) := by
  have hhandle : entry.handle = h := by simpa using List.find?_some hl
  refine ⟨?_, ?_, ?_⟩
  · intro hne
    simp [resource_manager_load_session_from_handle, hl, hne]
  · intro hco hst
    simp [resource_manager_load_session_from_handle, hl, hco, hst]
  · intro hco hst
    constructor
    · intro rc hsend
      constructor
      · simp [resource_manager_load_session_from_handle, hl, hco, hst, hsend]
      · simp only [resource_manager_load_session_from_handle, hl, hco, hst, hsend,
          ne_eq, not_true_eq_false, if_false]
        have hrm : session_list_remove st.sessionList entry
            = session_list_remove_handle st.sessionList h := by
          rw [session_list_remove, hhandle]
        simp [hrm, session_lookup_remove_self]
    · intro r hsend
      constructor
      · simp [resource_manager_load_session_from_handle, hl, hco, hst, hsend]
      · simp only [resource_manager_load_session_from_handle, hl, hco, hst, hsend,
          ne_eq, not_true_eq_false, if_false]
        cases wf with
        | true =>
          simp [session_lookup_remove_self]
        | false =>
          simp only [if_false, Bool.false_eq_true]
          rw [session_lookup_set_state, hl, Option.map_some']
          simp [hhandle, hco]

/-- Witness state for C8: connection 1 owns session 0x02000005 in SAVED_RM. -/
def C8st : RMState :=
  ⟨⟨[⟨0x02000005, 1, SessionEntryState.SAVED_RM, [3]⟩], [], 2⟩, testMaps⟩

/-- Witness for C8 at a concrete state (owner loads, will_flush clear). -/
theorem C8_load_session_from_handle_witness :
    ((⟨0x02000005, 1, SessionEntryState.SAVED_RM, [3]⟩ : SessionEntry).connection ≠ 1 →
      resource_manager_load_session_from_handle testBroker C8st 1 0x02000005 false
        = (TSS2_RC_SUCCESS, C8st, []))
    ∧ ((⟨0x02000005, 1, SessionEntryState.SAVED_RM, [3]⟩ : SessionEntry).connection = 1 →
        (⟨0x02000005, 1, SessionEntryState.SAVED_RM, [3]⟩ : SessionEntry).state
            ≠ SessionEntryState.SAVED_RM →
      resource_manager_load_session_from_handle testBroker C8st 1 0x02000005 false
        = (TSS2_RC_SUCCESS, C8st, []))
    ∧ ((⟨0x02000005, 1, SessionEntryState.SAVED_RM, [3]⟩ : SessionEntry).connection = 1 →
       (⟨0x02000005, 1, SessionEntryState.SAVED_RM, [3]⟩ : SessionEntry).state
           = SessionEntryState.SAVED_RM →
      (∀ rc, testBroker.send (tpm2_command_new_context_load [3]) = Except.error rc →
        (resource_manager_load_session_from_handle testBroker C8st 1 0x02000005 false).1 = rc
        ∧ session_list_lookup_handle
            (resource_manager_load_session_from_handle testBroker C8st 1
              0x02000005 false).2.1.sessionList 0x02000005 = none)
      ∧ (∀ r, testBroker.send (tpm2_command_new_context_load [3]) = Except.ok r →
        (resource_manager_load_session_from_handle testBroker C8st 1 0x02000005 false).1
            = TSS2_RC_SUCCESS
        ∧ session_list_lookup_handle
            (resource_manager_load_session_from_handle testBroker C8st 1
              0x02000005 false).2.1.sessionList 0x02000005
            = (if false then none
               else some { (⟨0x02000005, 1, SessionEntryState.SAVED_RM, [3]⟩ : SessionEntry)
                            with state := SessionEntryState.LOADED }))) :=
  C8_load_session_from_handle testBroker C8st 1 0x02000005 false
    ⟨0x02000005, 1, SessionEntryState.SAVED_RM, [3]⟩ rfl

/-- Helper: a command that reaches the send_response tail with an empty
loaded-transients list leaves a removed session removed: its handle is found
in neither the active nor the abandoned collection afterwards. -/
theorem finish_session_removed (B : Broker) (st1 : RMState) (cmd : Tpm2Command)
    (resp : Tpm2Response) (calls : List BrokerCall) (h : Nat)
    (hnone : session_list_lookup_handle st1.sessionList h = none)
    (hab : ∀ x ∈ st1.sessionList.abandoned, x.handle ≠ h) :
    session_list_lookup_handle (rm_finish B st1 cmd resp [] calls).2.1.sessionList h = none
    ∧ ∀ x ∈ (rm_finish B st1 cmd resp [] calls).2.1.sessionList.abandoned,
        x.handle ≠ h := by
  rw [rm_finish_nil_state]
  constructor
  · exact rm_save_sessions_lookup_none B st1 h hnone
  · intro x hx
    obtain ⟨y, hy, hxy⟩ := rm_save_sessions_abandoned B st1 x hx
    rw [hxy]
    exact hab y hy

/-- C4 counterexample: a FlushContext on session handle 0x03000000 whose
session is in state SAVED_RM.  The claim says no TPM interaction takes place
for a saved session, but the broker trace of the run contains the forwarded
FlushContext command (the state-dependent forwarding is commented out in the
source, so the command always falls through to the generic dispatch). -/
def C4st : RMState :=
  ⟨⟨[⟨0x03000000, 1, SessionEntryState.SAVED_RM, [9]⟩], [], 2⟩, testMaps⟩

/-- Command for the C4 counterexample and witness. -/
def C4cmd : Tpm2Command :=
  ⟨TPM2_CC_FlushContext, 1, [], [], Except.ok 0x03000000, Except.error 0, 0, [],
   0, 0, 0, 0⟩

/-- C4 as written is false: the session is in SAVED_RM, yet the FlushContext
command is sent to the AccessBroker (the run's broker trace is exactly the
forwarded command). -/
theorem C4_flush_session_counterexample :
    (∃ e, session_list_lookup_handle C4st.sessionList 0x03000000 = some e
        ∧ e.state = SessionEntryState.SAVED_RM)
    ∧ (resource_manager_process_tpm2_command testBroker C4st C4cmd).2.2
        = [BrokerCall.send C4cmd]
    ∧ session_list_lookup_handle
        (resource_manager_process_tpm2_command testBroker C4st C4cmd).2.1.sessionList
        0x03000000 = none :=
  ⟨⟨⟨0x03000000, 1, SessionEntryState.SAVED_RM, [9]⟩, rfl, rfl⟩, rfl, rfl⟩

/-- C4 amended: a FlushContext on a session handle removes the session from
the SessionList (both the active and the abandoned collections), and the
command is then forwarded to the TPM unconditionally — whatever the
session's prior state — because the branch that would answer the flush from
the RM is commented out in the source. -/
theorem C4_flush_session (B : Broker) (st : RMState) (cmd : Tpm2Command) (h : Nat)
    (hc : cmd.code = TPM2_CC_FlushContext)
    (hf : cmd.flushHandleRc = Except.ok h)
    (ht : h >>> TPM2_HR_SHIFT = TPM2_HT_HMAC_SESSION ∨
          h >>> TPM2_HR_SHIFT = TPM2_HT_POLICY_SESSION)
    (hhs : cmd.handles = [])
    (has : cmd.auths = [])
    (hresp : ∀ c r, B.send c = Except.ok r → r.handle = none) :
    BrokerCall.send cmd ∈ (resource_manager_process_tpm2_command B st cmd).2.2
    ∧ session_list_lookup_handle
        (resource_manager_process_tpm2_command B st cmd).2.1.sessionList h = none
    ∧ ∀ x ∈ (resource_manager_process_tpm2_command B st cmd).2.1.sessionList.abandoned,
        x.handle ≠ h := by
  have hq : resource_manager_quota_check st cmd = TSS2_RC_SUCCESS := by
    simp [resource_manager_quota_check, hc, TPM2_CC_FlushContext, TPM2_CC_CreatePrimary,
      TPM2_CC_Load, TPM2_CC_LoadExternal, TPM2_CC_StartAuthSession]
  have hs : command_special_processing st cmd
      = (none, { st with sessionList := session_list_remove_handle st.sessionList h }) := by
    rcases ht with ht | ht <;>
      simp [command_special_processing, resource_manager_flush_context, hc, hf, ht,
        TPM2_HT_TRANSIENT, TPM2_HT_HMAC_SESSION, TPM2_HT_POLICY_SESSION]
  set st1 : RMState :=
    { st with sessionList := session_list_remove_handle st.sessionList h } with hst1
  have hlp : rm_load_phase B st1 cmd = (st1, cmd, [], []) := by
    simp [rm_load_phase, hhs, has]
  have hnone : session_list_lookup_handle st1.sessionList h = none :=
    session_lookup_remove_self st.sessionList h
  have hab : ∀ x ∈ st1.sessionList.abandoned, x.handle ≠ h := by
    intro x hx
    have hx' : x ∈ st.sessionList.abandoned.filter (fun e => e.handle != h) := hx
    have := (List.mem_filter.mp hx').2
    simpa using this
  cases hsd : B.send cmd with
  | error rc =>
    have heq := process_eq_send_error B st cmd st1 rc hq hs (by rw [hlp]; exact hsd)
    rw [hlp] at heq
    rw [heq]
    refine ⟨?_, finish_session_removed B st1 cmd _ _ h hnone hab⟩
    rw [rm_finish_trace]
    simp [List.mem_append]
  | ok r =>
    have heq := process_eq_send_ok B st cmd st1 r hq hs (by rw [hlp]; exact hsd)
    rw [hlp] at heq
    have hccm : resource_manager_create_context_mapping st1 r [] = (r, st1, []) := by
      simp [resource_manager_create_context_mapping, hresp cmd r hsd]
    rw [hccm] at heq
    rw [heq]
    refine ⟨?_, finish_session_removed B st1 cmd _ _ h hnone hab⟩
    rw [rm_finish_trace]
    simp [List.mem_append]

/-- Witness for the amended C4 at a concrete state. -/
theorem C4_flush_session_witness :
    BrokerCall.send C4cmd ∈ (resource_manager_process_tpm2_command testBroker C4st C4cmd).2.2
    ∧ session_list_lookup_handle
        (resource_manager_process_tpm2_command testBroker C4st C4cmd).2.1.sessionList
        0x03000000 = none
    ∧ ∀ x ∈ (resource_manager_process_tpm2_command testBroker
        C4st C4cmd).2.1.sessionList.abandoned, x.handle ≠ 0x03000000 :=
  C4_flush_session testBroker C4st C4cmd 0x03000000 rfl rfl (by decide) rfl rfl
    (by intro c r hr; cases hr; rfl)

/-- C5 counterexample state: the presented context bytes match a session
owned by the still-connected connection 2 (nothing is abandoned). -/
def C5st : RMState :=
  ⟨⟨[⟨0x03000000, 2, SessionEntryState.SAVED_CLIENT, [7, 7]⟩], [], 2⟩, testMaps⟩

/-- ContextLoad from connection 1 presenting connection 2's context bytes. -/
def C5cmd : Tpm2Command :=
  ⟨TPM2_CC_ContextLoad, 1, [], [], Except.error 0, Except.ok 0x03000000, 0, [7, 7],
   0, 0, 0, 0⟩

/-- C5 as written is false on the claim-failure path: when the claim from
the abandoned queue fails, no access-denied response is synthesised — the
run forwards the ContextLoad to the TPM and the client receives the
broker's response (here a success). -/
theorem C5_claim_failure_counterexample :
    (resource_manager_process_tpm2_command testBroker C5st C5cmd).2.2
        = [BrokerCall.send C5cmd]
    ∧ (resource_manager_process_tpm2_command testBroker C5st C5cmd).1
        = ⟨1, TSS2_RC_SUCCESS, none, [], false, []⟩ :=
  ⟨rfl, rfl⟩

/-- C5 amended: for a ContextLoad whose context bytes match a tracked
session entry owned by another connection, the RM attempts to claim the
entry from the abandoned queue; on success it reassigns ownership to the
caller, sets the state to SAVED_RM and synthesises a success response
carrying the session handle; on claim failure it synthesises nothing — the
command is forwarded to the TPM. -/
theorem C5_load_context_claim (B : Broker) (st : RMState) (cmd : Tpm2Command)
    (sh : Nat) (entry : SessionEntry)
    (hc : cmd.code = TPM2_CC_ContextLoad)
    (hp : cmd.ctxParse = Except.ok sh)
    (hts : sh >>> TPM2_HR_SHIFT = TPM2_HT_HMAC_SESSION ∨
           sh >>> TPM2_HR_SHIFT = TPM2_HT_POLICY_SESSION)
    (hfound : session_list_lookup_context_client st.sessionList cmd.ctxBytes
        = some entry)
    (hne : entry.connection ≠ cmd.connection)
    (hhs : cmd.handles = [])
    (has : cmd.auths = []) :
    (st.sessionList.abandoned.any (fun x => x.handle == entry.handle) = true →
      (resource_manager_process_tpm2_command B st cmd).1
          = tpm2_response_new_context_load cmd.connection entry.handle
      ∧ session_list_lookup_handle
          (resource_manager_process_tpm2_command B st cmd).2.1.sessionList entry.handle
          = some ⟨entry.handle, cmd.connection, SessionEntryState.SAVED_RM, entry.context⟩
      ∧ (∀ c, BrokerCall.send c ∈ (resource_manager_process_tpm2_command B st cmd).2.2 →
          c.code = TPM2_CC_ContextSave))
    ∧ (st.sessionList.abandoned.any (fun x => x.handle == entry.handle) = false →
      BrokerCall.send cmd ∈ (resource_manager_process_tpm2_command B st cmd).2.2) := by
  have hq : resource_manager_quota_check st cmd = TSS2_RC_SUCCESS := by
    simp [resource_manager_quota_check, hc, TPM2_CC_ContextLoad, TPM2_CC_CreatePrimary,
      TPM2_CC_Load, TPM2_CC_LoadExternal, TPM2_CC_StartAuthSession]
  constructor
  · intro hclaim
    have hs : command_special_processing st cmd
        = (some (tpm2_response_new_context_load cmd.connection entry.handle),
           { st with sessionList := (session_list_set_state
               ⟨{ entry with connection := cmd.connection } :: st.sessionList.active,
                st.sessionList.abandoned.filter (fun x => x.handle != entry.handle),
                st.sessionList.sessionCap⟩
               entry.handle SessionEntryState.SAVED_RM) }) := by
      simp [command_special_processing, resource_manager_load_context,
        resource_manager_load_context_session, hc, hp, hts, hfound, hne,
        session_list_claim, hclaim, TPM2_CC_ContextLoad, TPM2_CC_FlushContext,
        TPM2_CC_ContextSave]
    rw [process_eq_special_some B st cmd _ _ hq hs]
    have hl1 : session_list_lookup_handle
        (session_list_set_state
          (⟨{ entry with connection := cmd.connection } :: st.sessionList.active,
            st.sessionList.abandoned.filter (fun x => x.handle != entry.handle),
            st.sessionList.sessionCap⟩ : SessionList)
          entry.handle SessionEntryState.SAVED_RM) entry.handle
        = some ⟨entry.handle, cmd.connection, SessionEntryState.SAVED_RM,
                entry.context⟩ := by
      simp [session_list_lookup_handle, session_list_set_state]
    refine ⟨rm_finish_resp B _ cmd _ [] [], ?_, rm_finish_nil_sends B _ cmd _⟩
    rw [rm_finish_nil_state]
    exact rm_save_sessions_lookup_pres B _ entry.handle _ hl1 (by simp)
  · intro hclaim
    have hs : command_special_processing st cmd = (none, st) := by
      simp [command_special_processing, resource_manager_load_context,
        resource_manager_load_context_session, hc, hp, hts, hfound, hne,
        session_list_claim, hclaim, TPM2_CC_ContextLoad, TPM2_CC_FlushContext,
        TPM2_CC_ContextSave]
    have hlp : rm_load_phase B st cmd = (st, cmd, [], []) := by
      simp [rm_load_phase, hhs, has]
    cases hsd : B.send cmd with
    | error rc =>
      have heq := process_eq_send_error B st cmd st rc hq hs (by rw [hlp]; exact hsd)
      rw [hlp] at heq
      rw [heq, rm_finish_trace]
      simp [List.mem_append]
    | ok r =>
      have heq := process_eq_send_ok B st cmd st r hq hs (by rw [hlp]; exact hsd)
      rw [hlp] at heq
      rw [heq, rm_finish_trace]
      simp [List.mem_append]

/-- Witness state for the amended C5: connection 2's session was abandoned,
so connection 1's claim succeeds. -/
def C5wst : RMState :=
  ⟨⟨[], [⟨0x03000000, 2, SessionEntryState.SAVED_CLIENT_CLOSED, [7, 7]⟩], 2⟩, testMaps⟩

/-- Witness for the amended C5 at a concrete state (successful claim). -/
theorem C5_load_context_claim_witness :
    (C5wst.sessionList.abandoned.any (fun x => x.handle == 0x03000000) = true →
      (resource_manager_process_tpm2_command testBroker C5wst C5cmd).1
          = tpm2_response_new_context_load C5cmd.connection 0x03000000
      ∧ session_list_lookup_handle
          (resource_manager_process_tpm2_command testBroker C5wst C5cmd).2.1.sessionList
          0x03000000
          = some ⟨0x03000000, C5cmd.connection, SessionEntryState.SAVED_RM, [7, 7]⟩
      ∧ (∀ c, BrokerCall.send c ∈
          (resource_manager_process_tpm2_command testBroker C5wst C5cmd).2.2 →
            c.code = TPM2_CC_ContextSave))
    ∧ (C5wst.sessionList.abandoned.any (fun x => x.handle == 0x03000000) = false →
      BrokerCall.send C5cmd ∈
        (resource_manager_process_tpm2_command testBroker C5wst C5cmd).2.2) :=
  C5_load_context_claim testBroker C5wst C5cmd 0x03000000
    ⟨0x03000000, 2, SessionEntryState.SAVED_CLIENT_CLOSED, [7, 7]⟩
    rfl rfl (by decide) rfl (by decide) rfl rfl

/-- Command for the C6 failing input: a ContextLoad whose body fails to
unmarshal as a TPMS_CONTEXT (rc 1); the stack structure's savedHandle slot
holds 0. -/
def C6cmd : Tpm2Command :=
  ⟨TPM2_CC_ContextLoad, 1, [], [], Except.error 0, Except.error 1, 0, [1, 2, 3],
   0, 0, 0, 0⟩

/-- C6 is the spec's (and the source comment's) intent, but the code does
not implement it: at a ContextLoad whose body fails to parse, the RM only
logs a warning — the response-generation is an unimplemented TODO comment —
and the command is forwarded to the TPM; the client receives the broker's
response, not a synthesised parameter error. -/
theorem C6_parse_failure_forwarded :
    C6cmd.ctxParse = Except.error 1
    ∧ (resource_manager_process_tpm2_command testBroker testSt C6cmd).2.2
        = [BrokerCall.send C6cmd]
    ∧ (resource_manager_process_tpm2_command testBroker testSt C6cmd).1
        = ⟨1, TSS2_RC_SUCCESS, none, [], false, []⟩ :=
  ⟨rfl, rfl, rfl⟩

/-- Fields of the command that the handle loading loop never changes. -/
theorem rm_load_handles_go_cmd (B : Broker) :
    ∀ (hs : List Nat) (st : RMState) (cmd : Tpm2Command) (i : Nat) (ts : List Nat)
      (cs : List BrokerCall),
      ((rm_load_handles_go B st cmd i hs ts cs).2.1).code = cmd.code
      ∧ ((rm_load_handles_go B st cmd i hs ts cs).2.1).connection = cmd.connection := by
  intro hs
  induction hs with
  | nil => intro st cmd i ts cs; exact ⟨rfl, rfl⟩
  | cons h rest ih =>
    intro st cmd i ts cs
    simp only [rm_load_handles_go]
    split
    · have hlt : ((resource_manager_load_transient B st cmd ts h i).2.1).code = cmd.code
          ∧ ((resource_manager_load_transient B st cmd ts h i).2.1).connection
              = cmd.connection := by
        cases hv : handle_map_vlookup (getTransMap st cmd.connection) h with
        | none => simp [resource_manager_load_transient, hv]
        | some e =>
          cases hcl : B.contextLoad e.context with
          | error rc => simp [resource_manager_load_transient, hv, hcl]
          | ok p => simp [resource_manager_load_transient, hv, hcl]
      obtain ⟨h1, h2⟩ := ih (resource_manager_load_transient B st cmd ts h i).1
        (resource_manager_load_transient B st cmd ts h i).2.1 (i + 1)
        (resource_manager_load_transient B st cmd ts h i).2.2.1
        (cs ++ (resource_manager_load_transient B st cmd ts h i).2.2.2)
      exact ⟨h1.trans hlt.1, h2.trans hlt.2⟩
    · split
      · exact ih _ cmd (i + 1) ts _
      · exact ih st cmd (i + 1) ts cs

/-- The load phase only substitutes handles: the forwarded command keeps the
incoming command's code and connection. -/
theorem rm_load_phase_cmd (B : Broker) (st : RMState) (cmd : Tpm2Command) :
    ((rm_load_phase B st cmd).2.1).code = cmd.code
    ∧ ((rm_load_phase B st cmd).2.1).connection = cmd.connection := by
  have hgo := rm_load_handles_go_cmd B cmd.handles st cmd 0 [] []
  unfold rm_load_phase resource_manager_load_handles
  dsimp only
  split
  · split
    · exact hgo
    · exact ⟨rfl, rfl⟩
  · split
    · exact hgo
    · exact ⟨rfl, rfl⟩

/-- Virtualising a response handle never changes the response code. -/
theorem create_context_mapping_code (st : RMState) (r : Tpm2Response) (ts : List Nat) :
    (resource_manager_create_context_mapping st r ts).1.code = r.code := by
  unfold resource_manager_create_context_mapping
  cases r.handle with
  | none => rfl
  | some h =>
    dsimp only
    split
    · rfl
    · split <;> rfl

/-- C9: a command that passes the quota check and is not answered by special
processing is always forwarded to the AccessBroker — with its original code
and connection — whatever the outcome of the handle-area and auth-area
context loads, and the emitted response is determined by the send phase
alone: a transport error rc yields the synthesised rc response, and a
successful send yields a response with the broker response's code (the load
phases' return codes are never used to abort dispatch or to synthesise an
error). -/
theorem C9_forward_despite_load_failures (B : Broker) (st : RMState)
    (cmd : Tpm2Command) (st1 : RMState)
    (hq : resource_manager_quota_check st cmd = TSS2_RC_SUCCESS)
    (hs : command_special_processing st cmd = (none, st1)) :
    ∃ c1, BrokerCall.send c1 ∈ (resource_manager_process_tpm2_command B st cmd).2.2
      ∧ c1.code = cmd.code ∧ c1.connection = cmd.connection
      ∧ (∀ rc, B.send c1 = Except.error rc →
          (resource_manager_process_tpm2_command B st cmd).1
            = tpm2_response_new_rc cmd.connection rc)
      ∧ (∀ r, B.send c1 = Except.ok r →
          (resource_manager_process_tpm2_command B st cmd).1.code = r.code) := by
  refine ⟨(rm_load_phase B st1 cmd).2.1, ?_⟩
  obtain ⟨hcode, hconn⟩ := rm_load_phase_cmd B st1 cmd
  cases hsd : B.send (rm_load_phase B st1 cmd).2.1 with
  | error rc0 =>
    rw [process_eq_send_error B st cmd st1 rc0 hq hs hsd, rm_finish_trace]
    refine ⟨by simp [List.mem_append], hcode, hconn, ?_, ?_⟩
    · intro rc hrc
      cases hrc
      rw [rm_finish_resp]
    · intro r hr
      cases hr
  | ok r0 =>
    rw [process_eq_send_ok B st cmd st1 r0 hq hs hsd, rm_finish_trace]
    refine ⟨by simp [List.mem_append], hcode, hconn, ?_, ?_⟩
    · intro rc hrc
      cases hrc
    · intro r hr
      cases hr
      rw [rm_finish_resp]
      exact create_context_mapping_code _ r0 _

/-- Command for the C9 witness: a ReadPublic-style command referencing
transient vhandle 0x80000001 while every broker context load fails. -/
def C9cmd : Tpm2Command :=
  ⟨0x173, 1, [0x80000001], [], Except.error 0, Except.error 0, 0, [], 0, 0, 0, 0⟩

/-- Witness for C9 at a concrete state where the transient context load
fails (testBroker.contextLoad always errors) yet the command is forwarded. -/
theorem C9_forward_despite_load_failures_witness :
    resource_manager_quota_check testSt C9cmd = TSS2_RC_SUCCESS
    ∧ command_special_processing testSt C9cmd = (none, testSt)
    ∧ ∃ c1, BrokerCall.send c1 ∈
          (resource_manager_process_tpm2_command testBroker testSt C9cmd).2.2
        ∧ c1.code = C9cmd.code ∧ c1.connection = C9cmd.connection
        ∧ (∀ rc, testBroker.send c1 = Except.error rc →
            (resource_manager_process_tpm2_command testBroker testSt C9cmd).1
              = tpm2_response_new_rc C9cmd.connection rc)
        ∧ (∀ r, testBroker.send c1 = Except.ok r →
            (resource_manager_process_tpm2_command testBroker testSt C9cmd).1.code
              = r.code) :=
  ⟨rfl, rfl, C9_forward_despite_load_failures testBroker testSt C9cmd testSt rfl rfl⟩

/-! ### The phandle-zero invariant (C3) -/

/-- The spec's quiescent-boundary invariant: no transient object of any
connection is resident in the TPM. -/
def AllPhandlesZero (st : RMState) : Prop :=
  ∀ conn : Nat, ∀ e ∈ (st.transMaps conn).entries, e.phandle = 0

/-- Well-formedness of the per-connection maps: vhandles are unique keys. -/
def MapKeysNodup (st : RMState) : Prop :=
  ∀ conn : Nat, ((st.transMaps conn).entries.map (fun e => e.vhandle)).Nodup

/-- Invariant carried through a command's load and post-process phases:
every nonzero phandle belongs to the dispatching connection, is recorded in
the loaded-transients list under a transient-typed vhandle, and is itself
transient-typed; the recorded vhandles are transient-typed and the maps keep
unique keys. -/
def LoadInv (conn : Nat) (ts : List Nat) (st : RMState) : Prop :=
  (∀ c : Nat, ∀ e ∈ (st.transMaps c).entries,
     e.phandle = 0
     ∨ (c = conn ∧ e.vhandle ∈ ts
        ∧ e.phandle >>> TPM2_HR_SHIFT = TPM2_HT_TRANSIENT))
  ∧ (∀ v ∈ ts, v >>> TPM2_HR_SHIFT = TPM2_HT_TRANSIENT)
  ∧ MapKeysNodup st

theorem LoadInv_nil (conn : Nat) (st : RMState)
    (hz : AllPhandlesZero st) (hnd : MapKeysNodup st) : LoadInv conn [] st :=
  ⟨fun c e he => Or.inl (hz c e he), by simp, hnd⟩

theorem LoadInv_of_transMaps_eq (conn : Nat) (ts : List Nat) (st st' : RMState)
    (h : st'.transMaps = st.transMaps) (hinv : LoadInv conn ts st) :
    LoadInv conn ts st' := by
  unfold LoadInv MapKeysNodup
  rw [h]
  exact hinv

theorem map_key_of_upd {α β : Type} (key : α → β) (g : α → α)
    (hg : ∀ e, key (g e) = key e) :
    ∀ l : List α, (l.map g).map key = l.map key := by
  intro l
  induction l with
  | nil => rfl
  | cons a l ih => simp [hg a, ih]

theorem eq_of_key_nodup {α β : Type} (key : α → β) :
    ∀ l : List α, (l.map key).Nodup →
      ∀ a b : α, a ∈ l → b ∈ l → key a = key b → a = b := by
  intro l
  induction l with
  | nil => intro _ a b ha; cases ha
  | cons x l ih =>
    intro hnd a b ha hb hk
    rw [List.map_cons, List.nodup_cons] at hnd
    rcases List.mem_cons.mp ha with ha | ha <;> rcases List.mem_cons.mp hb with hb | hb
    · rw [ha, hb]
    · exfalso
      apply hnd.1
      rw [ha] at hk
      rw [hk]
      exact List.mem_map_of_mem key hb
    · exfalso
      apply hnd.1
      rw [hb] at hk
      rw [← hk]
      exact List.mem_map_of_mem key ha
    · exact ih hnd.2 a b ha hb hk

theorem next_vhandle_type (c : Nat) (hc : c < 2 ^ 24) :
    ((TPM2_HT_TRANSIENT <<< TPM2_HR_SHIFT) + c) >>> TPM2_HR_SHIFT
      = TPM2_HT_TRANSIENT := by
  unfold TPM2_HT_TRANSIENT TPM2_HR_SHIFT
  rw [Nat.shiftRight_eq_div_pow, Nat.shiftLeft_eq]
  rw [show (128 : Nat) * 2 ^ 24 + c = 2 ^ 24 * 128 + c by ring]
  rw [Nat.mul_add_div (by norm_num), Nat.div_eq_of_lt hc]

theorem transMaps_setTransMap_same (st : RMState) (c : Nat) (m : HandleMap) :
    (setTransMap st c m).transMaps c = m :=
  getTransMap_setTransMap_same st c m

theorem flushsave_step_inv (B : Broker) (conn v : Nat) (ts : List Nat) (st : RMState)
    (hsf : ∀ p, ∃ ctx, B.saveFlush p = Except.ok ctx)
    (hinv : LoadInv conn (v :: ts) st) :
    LoadInv conn ts (resource_manager_flushsave_context B st conn v).1 := by
  obtain ⟨hmain, hts, hnd⟩ := hinv
  cases hv : handle_map_vlookup (getTransMap st conn) v with
  | none =>
    have heq : (resource_manager_flushsave_context B st conn v).1 = st := by
      simp [resource_manager_flushsave_context, hv]
    rw [heq]
    refine ⟨?_, fun x hx => hts x (List.mem_cons_of_mem v hx), hnd⟩
    intro c e he
    rcases hmain c e he with h0 | ⟨hc, hmem, hty⟩
    · exact Or.inl h0
    · right
      refine ⟨hc, ?_, hty⟩
      rcases List.mem_cons.mp hmem with hev | hev
      · exfalso
        rw [hc] at he
        have := List.find?_eq_none.mp hv e he
        simp [hev] at this
      · exact hev
  | some e0 =>
    have he0mem : e0 ∈ (st.transMaps conn).entries := List.mem_of_find?_eq_some hv
    have he0v : e0.vhandle = v := by simpa using List.find?_some hv
    by_cases hp : e0.phandle >>> TPM2_HR_SHIFT = TPM2_HT_TRANSIENT
    · obtain ⟨ctx, hctx⟩ := hsf e0.phandle
      have heq : (resource_manager_flushsave_context B st conn v).1
          = setTransMap st conn
              (handle_map_set_phandle
                (handle_map_set_context (getTransMap st conn) v ctx) v 0) := by
        simp [resource_manager_flushsave_context, hv, hp, hctx]
      rw [heq]
      refine ⟨?_, fun x hx => hts x (List.mem_cons_of_mem v hx), ?_⟩
      · intro c e he
        by_cases hcc : c = conn
        · rw [hcc, transMaps_setTransMap_same] at he
          unfold handle_map_set_phandle handle_map_set_context at he
          dsimp only at he
          rw [List.mem_map] at he
          obtain ⟨e1, he1, hee⟩ := he
          rw [List.mem_map] at he1
          obtain ⟨e2, he2, he12⟩ := he1
          by_cases hv2 : e2.vhandle = v
          · left
            rw [← hee, ← he12]
            simp [hv2]
          · rcases hmain conn e2 he2 with h0 | ⟨_, hmem, hty⟩
            · left
              rw [← hee, ← he12]
              simp [hv2, h0]
            · right
              have hee2 : e = e2 := by
                rw [← hee, ← he12]
                simp [hv2]
              rw [hee2]
              refine ⟨hcc, ?_, hty⟩
              rcases List.mem_cons.mp hmem with hev | hev
              · exact absurd hev hv2
              · exact hev
        · rw [transMaps_setTransMap_other st conn c _ hcc] at he
          rcases hmain c e he with h0 | ⟨hc, _, _⟩
          · exact Or.inl h0
          · exact absurd hc hcc
      · intro c
        by_cases hcc : c = conn
        · rw [hcc, transMaps_setTransMap_same]
          unfold handle_map_set_phandle handle_map_set_context
          dsimp only
          rw [map_key_of_upd _ _ (by intro e; by_cases hcnd : e.vhandle = v <;> simp [hcnd]),
              map_key_of_upd _ _ (by intro e; by_cases hcnd : e.vhandle = v <;> simp [hcnd])]
          exact hnd conn
        · rw [transMaps_setTransMap_other st conn c _ hcc]
          exact hnd c
    · have heq : (resource_manager_flushsave_context B st conn v).1 = st := by
        simp [resource_manager_flushsave_context, hv, hp]
      rw [heq]
      refine ⟨?_, fun x hx => hts x (List.mem_cons_of_mem v hx), hnd⟩
      intro c e he
      rcases hmain c e he with h0 | ⟨hc, hmem, hty⟩
      · exact Or.inl h0
      · rcases List.mem_cons.mp hmem with hev | hev
        · exfalso
          rw [hc] at he
          have hee0 : e = e0 :=
            eq_of_key_nodup _ _ (hnd conn) e e0 he he0mem (by rw [hev, he0v])
          rw [hee0] at hty
          exact hp hty
        · exact Or.inr ⟨hc, hev, hty⟩

theorem foldl_flushsave_allzero (B : Broker) (conn : Nat)
    (hsf : ∀ p, ∃ ctx, B.saveFlush p = Except.ok ctx) :
    ∀ (ts : List Nat) (acc : RMState × List BrokerCall),
      LoadInv conn ts acc.1 →
      AllPhandlesZero ((ts.foldl (rm_flushsave_step B conn) acc).1) := by
  intro ts
  induction ts with
  | nil =>
    intro acc hinv c e he
    rcases hinv.1 c e he with h0 | ⟨_, hmem, _⟩
    · exact h0
    · exact absurd hmem (List.not_mem_nil _)
  | cons v ts ih =>
    intro acc hinv
    rw [List.foldl_cons]
    exact ih _ (flushsave_step_inv B conn v ts acc.1 hsf hinv)

theorem remove_step_inv (conn v : Nat) (ts : List Nat) (st : RMState)
    (hinv : LoadInv conn (v :: ts) st) :
    LoadInv conn ts (remove_entry_from_handle_map st conn v) := by
  obtain ⟨hmain, hts, hnd⟩ := hinv
  have hvt : v >>> TPM2_HR_SHIFT = TPM2_HT_TRANSIENT := hts v (List.mem_cons_self v ts)
  unfold remove_entry_from_handle_map
  rw [if_pos hvt]
  refine ⟨?_, fun x hx => hts x (List.mem_cons_of_mem v hx), ?_⟩
  · intro c e he
    by_cases hcc : c = conn
    · rw [hcc, transMaps_setTransMap_same] at he
      unfold handle_map_remove at he
      dsimp only at he
      rw [List.mem_filter] at he
      rcases hmain conn e he.1 with h0 | ⟨_, hmem, hty⟩
      · exact Or.inl h0
      · right
        refine ⟨hcc, ?_, hty⟩
        rcases List.mem_cons.mp hmem with hev | hev
        · exfalso
          have := he.2
          simp [hev] at this
        · exact hev
    · rw [transMaps_setTransMap_other st conn c _ hcc] at he
      rcases hmain c e he with h0 | ⟨hc, _, _⟩
      · exact Or.inl h0
      · exact absurd hc hcc
  · intro c
    by_cases hcc : c = conn
    · rw [hcc, transMaps_setTransMap_same]
      unfold handle_map_remove
      dsimp only
      have hsub : List.Sublist
          (((getTransMap st conn).entries.filter
            (fun e => e.vhandle != v)).map (fun e => e.vhandle))
          ((getTransMap st conn).entries.map (fun e => e.vhandle)) :=
        List.Sublist.map _ (List.filter_sublist _)
      exact (hnd conn).sublist hsub
    · rw [transMaps_setTransMap_other st conn c _ hcc]
      exact hnd c

theorem foldl_remove_allzero (conn : Nat) :
    ∀ (ts : List Nat) (st : RMState),
      LoadInv conn ts st →
      AllPhandlesZero
        (ts.foldl (fun acc v => remove_entry_from_handle_map acc conn v) st) := by
  intro ts
  induction ts with
  | nil =>
    intro st hinv c e he
    rcases hinv.1 c e he with h0 | ⟨_, hmem, _⟩
    · exact h0
    · exact absurd hmem (List.not_mem_nil _)
  | cons v ts ih =>
    intro st hinv
    rw [List.foldl_cons]
    exact ih _ (remove_step_inv conn v ts st hinv)

theorem post_process_allzero (B : Broker) (st : RMState) (conn attrs : Nat)
    (ts : List Nat)
    (hsf : ∀ p, ∃ ctx, B.saveFlush p = Except.ok ctx)
    (hinv : LoadInv conn ts st) :
    AllPhandlesZero (post_process_loaded_transients B st conn attrs ts).1 := by
  unfold post_process_loaded_transients
  split
  · exact foldl_flushsave_allzero B conn hsf ts (st, []) hinv
  · exact foldl_remove_allzero conn ts st hinv

theorem load_transient_connection (B : Broker) (st : RMState) (cmd : Tpm2Command)
    (ts : List Nat) (h i : Nat) :
    ((resource_manager_load_transient B st cmd ts h i).2.1).connection
      = cmd.connection := by
  cases hv : handle_map_vlookup (getTransMap st cmd.connection) h with
  | none => simp [resource_manager_load_transient, hv]
  | some e =>
    cases hcl : B.contextLoad e.context with
    | error rc => simp [resource_manager_load_transient, hv, hcl]
    | ok p => simp [resource_manager_load_transient, hv, hcl]

theorem load_transient_inv (B : Broker) (st : RMState) (cmd : Tpm2Command)
    (ts : List Nat) (h i : Nat) (conn : Nat)
    (hconn : cmd.connection = conn)
    (hcl : ∀ ctx p, B.contextLoad ctx = Except.ok p →
        p >>> TPM2_HR_SHIFT = TPM2_HT_TRANSIENT)
    (hh : h >>> TPM2_HR_SHIFT = TPM2_HT_TRANSIENT)
    (hinv : LoadInv conn ts st) :
    LoadInv conn ((resource_manager_load_transient B st cmd ts h i).2.2.1)
      ((resource_manager_load_transient B st cmd ts h i).1)
    ∧ (((resource_manager_load_transient B st cmd ts h i).1).transMaps conn).counter
        = (st.transMaps conn).counter := by
  obtain ⟨hmain, hts, hnd⟩ := hinv
  cases hv : handle_map_vlookup (getTransMap st cmd.connection) h with
  | none =>
    have heq : resource_manager_load_transient B st cmd ts h i = (st, cmd, ts, []) := by
      simp [resource_manager_load_transient, hv]
    rw [heq]
    exact ⟨⟨hmain, hts, hnd⟩, rfl⟩
  | some e0 =>
    cases hcl0 : B.contextLoad e0.context with
    | error rc =>
      have heq : resource_manager_load_transient B st cmd ts h i
          = (st, cmd, ts, [BrokerCall.contextLoad e0.context]) := by
        simp [resource_manager_load_transient, hv, hcl0]
      rw [heq]
      exact ⟨⟨hmain, hts, hnd⟩, rfl⟩
    | ok p =>
      have hpt : p >>> TPM2_HR_SHIFT = TPM2_HT_TRANSIENT := hcl e0.context p hcl0
      have heq : resource_manager_load_transient B st cmd ts h i
          = (setTransMap st cmd.connection
              (handle_map_set_phandle (getTransMap st cmd.connection) h p),
             { cmd with handles := cmd.handles.set i p },
             h :: ts,
             [BrokerCall.contextLoad e0.context]) := by
        simp [resource_manager_load_transient, hv, hcl0]
      rw [heq, hconn]
      dsimp only
      refine ⟨⟨?_, ?_, ?_⟩, ?_⟩
      · intro c e he
        by_cases hcc : c = conn
        · rw [hcc, transMaps_setTransMap_same] at he
          unfold handle_map_set_phandle at he
          dsimp only at he
          rw [List.mem_map] at he
          obtain ⟨e1, he1, hee⟩ := he
          by_cases hv1 : e1.vhandle = h
          · right
            refine ⟨hcc, ?_, ?_⟩
            · rw [← hee]
              simp [hv1, List.mem_cons]
            · rw [← hee]
              simp [hv1, hpt]
          · have hee1 : e = e1 := by rw [← hee]; simp [hv1]
            rw [hee1]
            rcases hmain conn e1 he1 with h0 | ⟨_, hmem, hty⟩
            · exact Or.inl h0
            · exact Or.inr ⟨hcc, List.mem_cons_of_mem h hmem, hty⟩
        · rw [transMaps_setTransMap_other st conn c _ hcc] at he
          rcases hmain c e he with h0 | ⟨hc, _, _⟩
          · exact Or.inl h0
          · exact absurd hc hcc
      · intro x hx
        rcases List.mem_cons.mp hx with hx | hx
        · rw [hx]; exact hh
        · exact hts x hx
      · intro c
        by_cases hcc : c = conn
        · rw [hcc, transMaps_setTransMap_same]
          unfold handle_map_set_phandle
          dsimp only
          rw [map_key_of_upd _ _ (by intro e; by_cases hcnd : e.vhandle = h <;> simp [hcnd])]
          exact hnd conn
        · rw [transMaps_setTransMap_other st conn c _ hcc]
          exact hnd c
      · rw [transMaps_setTransMap_same]
        rfl

theorem rm_load_handles_go_inv (B : Broker) (conn : Nat)
    (hcl : ∀ ctx p, B.contextLoad ctx = Except.ok p →
        p >>> TPM2_HR_SHIFT = TPM2_HT_TRANSIENT) :
    ∀ (hs : List Nat) (st : RMState) (cmd : Tpm2Command) (i : Nat) (ts : List Nat)
      (cs : List BrokerCall),
      cmd.connection = conn →
      LoadInv conn ts st →
      LoadInv conn ((rm_load_handles_go B st cmd i hs ts cs).2.2.1)
        ((rm_load_handles_go B st cmd i hs ts cs).1)
      ∧ (((rm_load_handles_go B st cmd i hs ts cs).1).transMaps conn).counter
          = (st.transMaps conn).counter := by
  intro hs
  induction hs with
  | nil => intro st cmd i ts cs _ hinv; exact ⟨hinv, rfl⟩
  | cons h rest ih =>
    intro st cmd i ts cs hconn hinv
    simp only [rm_load_handles_go]
    split
    · rename_i hht
      have hlt := load_transient_inv B st cmd ts h i conn hconn hcl hht hinv
      have hc1 : ((resource_manager_load_transient B st cmd ts h i).2.1).connection
          = conn := by rw [load_transient_connection, hconn]
      obtain ⟨hinv1, hcnt1⟩ :=
        ih (resource_manager_load_transient B st cmd ts h i).1
          (resource_manager_load_transient B st cmd ts h i).2.1 (i + 1)
          (resource_manager_load_transient B st cmd ts h i).2.2.1
          (cs ++ (resource_manager_load_transient B st cmd ts h i).2.2.2)
          hc1 hlt.1
      exact ⟨hinv1, hcnt1.trans hlt.2⟩
    · split
      · have hsm := load_session_transMaps B st cmd.connection h false
        have hinv1 : LoadInv conn ts
            (resource_manager_load_session_from_handle B st cmd.connection h false).2.1 :=
          LoadInv_of_transMaps_eq conn ts st _ hsm hinv
        obtain ⟨hinv2, hcnt2⟩ := ih _ cmd (i + 1) ts _ hconn hinv1
        refine ⟨hinv2, hcnt2.trans ?_⟩
        rw [hsm]
      · exact ih st cmd (i + 1) ts cs hconn hinv

theorem rm_load_phase_inv (B : Broker) (st : RMState) (cmd : Tpm2Command) (conn : Nat)
    (hconn : cmd.connection = conn)
    (hcl : ∀ ctx p, B.contextLoad ctx = Except.ok p →
        p >>> TPM2_HR_SHIFT = TPM2_HT_TRANSIENT)
    (hz : AllPhandlesZero st) (hnd : MapKeysNodup st) :
    LoadInv conn ((rm_load_phase B st cmd).2.2.1) ((rm_load_phase B st cmd).1)
    ∧ (((rm_load_phase B st cmd).1).transMaps conn).counter
        = (st.transMaps conn).counter := by
  have hinv0 : LoadInv conn [] st := LoadInv_nil conn st hz hnd
  have hgo := rm_load_handles_go_inv B conn hcl cmd.handles st cmd 0 [] [] hconn hinv0
  unfold rm_load_phase resource_manager_load_handles
  dsimp only
  split
  · split
    · exact hgo
    · exact ⟨hinv0, rfl⟩
  · split
    · rename_i hlen _
      have hauth := rm_load_auths_transMaps B
        (rm_load_handles_go B st cmd 0 cmd.handles [] []).1
        (rm_load_handles_go B st cmd 0 cmd.handles [] []).2.1
      refine ⟨LoadInv_of_transMaps_eq conn _ _ _ hauth hgo.1, ?_⟩
      rw [hauth]
      exact hgo.2
    · have hauth := rm_load_auths_transMaps B st cmd
      refine ⟨LoadInv_of_transMaps_eq conn _ _ _ hauth hinv0, ?_⟩
      rw [hauth]

/-- Special processing either leaves the state alone, changes only the
SessionList, or removes one entry from the calling connection's map. -/
theorem special_state (st : RMState) (cmd : Tpm2Command) :
    (command_special_processing st cmd).2 = st
    ∨ (∃ sl, (command_special_processing st cmd).2 = { st with sessionList := sl })
    ∨ (∃ h, (command_special_processing st cmd).2
        = setTransMap st cmd.connection
            (handle_map_remove (getTransMap st cmd.connection) h)) := by
  by_cases h1 : cmd.code = TPM2_CC_FlushContext
  · cases hf : cmd.flushHandleRc with
    | error rc =>
      left
      simp [command_special_processing, TPM2_CC_FlushContext, TPM2_CC_ContextSave, TPM2_CC_ContextLoad, TPM2_CC_GetCapability, resource_manager_flush_context, h1, hf]
    | ok handle =>
      by_cases ht : handle >>> TPM2_HR_SHIFT = TPM2_HT_TRANSIENT
      · cases hv : handle_map_vlookup (getTransMap st cmd.connection) handle with
        | some e =>
          right; right
          exact ⟨handle, by
            simp [command_special_processing, TPM2_CC_FlushContext, TPM2_CC_ContextSave, TPM2_CC_ContextLoad, TPM2_CC_GetCapability, resource_manager_flush_context,
              h1, hf, ht, hv]⟩
        | none =>
          left
          simp [command_special_processing, TPM2_CC_FlushContext, TPM2_CC_ContextSave, TPM2_CC_ContextLoad, TPM2_CC_GetCapability, resource_manager_flush_context,
            h1, hf, ht, hv]
      · by_cases hts : handle >>> TPM2_HR_SHIFT = TPM2_HT_HMAC_SESSION ∨
            handle >>> TPM2_HR_SHIFT = TPM2_HT_POLICY_SESSION
        · right; left
          exact ⟨session_list_remove_handle st.sessionList handle, by
            simp [command_special_processing, TPM2_CC_FlushContext, TPM2_CC_ContextSave, TPM2_CC_ContextLoad, TPM2_CC_GetCapability, resource_manager_flush_context,
              h1, hf, ht, hts]⟩
        · left
          simp [command_special_processing, TPM2_CC_FlushContext, TPM2_CC_ContextSave, TPM2_CC_ContextLoad, TPM2_CC_GetCapability, resource_manager_flush_context,
            h1, hf, ht, hts]
  · by_cases h2 : cmd.code = TPM2_CC_ContextSave
    · by_cases ht : (cmd.handles.head?.getD 0) >>> TPM2_HR_SHIFT = TPM2_HT_HMAC_SESSION
          ∨ (cmd.handles.head?.getD 0) >>> TPM2_HR_SHIFT = TPM2_HT_POLICY_SESSION
      · cases hl : session_list_lookup_handle st.sessionList
            (cmd.handles.head?.getD 0) with
        | none =>
          left
          simp [command_special_processing, TPM2_CC_FlushContext, TPM2_CC_ContextSave, TPM2_CC_ContextLoad, TPM2_CC_GetCapability, resource_manager_save_context,
            resource_manager_save_context_session, h1, h2, ht, hl]
        | some e =>
          by_cases hco : e.connection = cmd.connection
          · right; left
            refine ⟨session_list_set_state st.sessionList (cmd.handles.head?.getD 0)
              SessionEntryState.SAVED_CLIENT, ?_⟩
            simp [command_special_processing, TPM2_CC_FlushContext, TPM2_CC_ContextSave, TPM2_CC_ContextLoad, TPM2_CC_GetCapability, resource_manager_save_context,
              resource_manager_save_context_session, h1, h2, ht, hl, hco]
          · left
            simp [command_special_processing, TPM2_CC_FlushContext, TPM2_CC_ContextSave, TPM2_CC_ContextLoad, TPM2_CC_GetCapability, resource_manager_save_context,
              resource_manager_save_context_session, h1, h2, ht, hl, hco]
      · left
        simp [command_special_processing, TPM2_CC_FlushContext, TPM2_CC_ContextSave, TPM2_CC_ContextLoad, TPM2_CC_GetCapability, resource_manager_save_context,
          resource_manager_save_context_session, h1, h2, ht]
    · by_cases h3 : cmd.code = TPM2_CC_ContextLoad
      · have hsv : ∀ shv : Nat,
            (shv >>> TPM2_HR_SHIFT = TPM2_HT_HMAC_SESSION ∨
             shv >>> TPM2_HR_SHIFT = TPM2_HT_POLICY_SESSION) ∨
            ¬ (shv >>> TPM2_HR_SHIFT = TPM2_HT_HMAC_SESSION ∨
               shv >>> TPM2_HR_SHIFT = TPM2_HT_POLICY_SESSION) := fun _ => em _
        have hLCS : (resource_manager_load_context_session st cmd).2 = st
            ∨ ∃ sl, (resource_manager_load_context_session st cmd).2
                = { st with sessionList := sl } := by
          cases hfound : session_list_lookup_context_client st.sessionList
              cmd.ctxBytes with
          | none =>
            left
            simp [resource_manager_load_context_session, hfound]
          | some entry =>
            by_cases hco : entry.connection = cmd.connection
            · right
              refine ⟨session_list_set_state st.sessionList entry.handle
                SessionEntryState.SAVED_RM, ?_⟩
              simp [resource_manager_load_context_session, hfound, hco]
            · cases hcl : session_list_claim st.sessionList entry cmd.connection with
              | none =>
                left
                simp [resource_manager_load_context_session, hfound, hco, hcl]
              | some sl1 =>
                right
                refine ⟨session_list_set_state sl1 entry.handle
                  SessionEntryState.SAVED_RM, ?_⟩
                simp [resource_manager_load_context_session, hfound, hco, hcl]
        cases hp : cmd.ctxParse with
        | ok sh =>
          rcases hsv sh with hts | hts
          · rcases hLCS with hx | ⟨sl, hx⟩
            · left
              simp [command_special_processing, TPM2_CC_FlushContext, TPM2_CC_ContextSave, TPM2_CC_ContextLoad, TPM2_CC_GetCapability, resource_manager_load_context,
                h1, h2, h3, hp, hts, hx]
            · right; left
              exact ⟨sl, by
                simp [command_special_processing, TPM2_CC_FlushContext, TPM2_CC_ContextSave, TPM2_CC_ContextLoad, TPM2_CC_GetCapability, resource_manager_load_context,
                  h1, h2, h3, hp, hts, hx]⟩
          · left
            simp [command_special_processing, TPM2_CC_FlushContext, TPM2_CC_ContextSave, TPM2_CC_ContextLoad, TPM2_CC_GetCapability, resource_manager_load_context,
              h1, h2, h3, hp, hts]
        | error rc =>
          rcases hsv cmd.ctxResidualHandle with hts | hts
          · rcases hLCS with hx | ⟨sl, hx⟩
            · left
              simp [command_special_processing, TPM2_CC_FlushContext, TPM2_CC_ContextSave, TPM2_CC_ContextLoad, TPM2_CC_GetCapability, resource_manager_load_context,
                h1, h2, h3, hp, hts, hx]
            · right; left
              exact ⟨sl, by
                simp [command_special_processing, TPM2_CC_FlushContext, TPM2_CC_ContextSave, TPM2_CC_ContextLoad, TPM2_CC_GetCapability, resource_manager_load_context,
                  h1, h2, h3, hp, hts, hx]⟩
          · left
            simp [command_special_processing, TPM2_CC_FlushContext, TPM2_CC_ContextSave, TPM2_CC_ContextLoad, TPM2_CC_GetCapability, resource_manager_load_context,
              h1, h2, h3, hp, hts]
      · by_cases h4 : cmd.code = TPM2_CC_GetCapability
        · left
          simp [command_special_processing, h4, TPM2_CC_GetCapability,
            TPM2_CC_FlushContext, TPM2_CC_ContextSave, TPM2_CC_ContextLoad]
        · left
          simp [command_special_processing, h1, h2, h3, h4]

theorem special_preserves (st : RMState) (cmd : Tpm2Command)
    (hz : AllPhandlesZero st) (hnd : MapKeysNodup st) :
    AllPhandlesZero (command_special_processing st cmd).2
    ∧ MapKeysNodup (command_special_processing st cmd).2 := by
  rcases special_state st cmd with h | ⟨sl, h⟩ | ⟨hh, h⟩ <;> rw [h]
  · exact ⟨hz, hnd⟩
  · exact ⟨hz, hnd⟩
  · constructor
    · intro c e he
      by_cases hcc : c = cmd.connection
      · rw [hcc, transMaps_setTransMap_same] at he
        unfold handle_map_remove at he
        dsimp only at he
        rw [List.mem_filter] at he
        exact hz cmd.connection e he.1
      · rw [transMaps_setTransMap_other st cmd.connection c _ hcc] at he
        exact hz c e he
    · intro c
      by_cases hcc : c = cmd.connection
      · rw [hcc, transMaps_setTransMap_same]
        unfold handle_map_remove
        dsimp only
        have hsub : List.Sublist
            (((getTransMap st cmd.connection).entries.filter
              (fun e => e.vhandle != hh)).map (fun e => e.vhandle))
            ((getTransMap st cmd.connection).entries.map (fun e => e.vhandle)) :=
          List.Sublist.map _ (List.filter_sublist _)
        exact (hnd cmd.connection).sublist hsub
      · rw [transMaps_setTransMap_other st cmd.connection c _ hcc]
        exact hnd c

theorem special_counter (st : RMState) (cmd : Tpm2Command) (c : Nat) :
    (((command_special_processing st cmd).2).transMaps c).counter
      = (st.transMaps c).counter := by
  rcases special_state st cmd with h | ⟨sl, h⟩ | ⟨hh, h⟩ <;> rw [h]
  by_cases hcc : c = cmd.connection
  · rw [hcc, transMaps_setTransMap_same]
    rfl
  · rw [transMaps_setTransMap_other st cmd.connection c _ hcc]

theorem create_context_mapping_session_transMaps (st : RMState) (r : Tpm2Response)
    (h : Nat) :
    (create_context_mapping_session st r h).transMaps = st.transMaps := by
  unfold create_context_mapping_session
  cases session_list_lookup_handle st.sessionList h <;> rfl

theorem create_mapping_inv (st : RMState) (r : Tpm2Response) (ts : List Nat)
    (conn : Nat)
    (hrc : r.connection = conn)
    (hcnt : (st.transMaps conn).counter < 2 ^ 24)
    (hinv : LoadInv conn ts st) :
    LoadInv conn ((resource_manager_create_context_mapping st r ts).2.2)
      ((resource_manager_create_context_mapping st r ts).2.1) := by
  obtain ⟨hmain, hts, hnd⟩ := hinv
  cases hh : r.handle with
  | none =>
    have heq : resource_manager_create_context_mapping st r ts = (r, st, ts) := by
      simp [resource_manager_create_context_mapping, hh]
    rw [heq]
    exact ⟨hmain, hts, hnd⟩
  | some h =>
    by_cases hht : h >>> TPM2_HR_SHIFT = TPM2_HT_TRANSIENT
    · have heq : resource_manager_create_context_mapping st r ts
          = create_context_mapping_transient st r ts h := by
        simp [resource_manager_create_context_mapping, hh, hht]
      rw [heq]
      unfold create_context_mapping_transient handle_map_next_vhandle handle_map_insert
      dsimp only
      rw [hrc]
      refine ⟨?_, ?_, ?_⟩
      · intro c e he
        by_cases hcc : c = conn
        · rw [hcc, transMaps_setTransMap_same] at he
          dsimp only at he
          rcases List.mem_cons.mp he with he | he
          · right
            rw [he]
            exact ⟨hcc, List.mem_cons_self _ _, hht⟩
          · rw [List.mem_filter] at he
            rcases hmain conn e he.1 with h0 | ⟨_, hmem, hty⟩
            · exact Or.inl h0
            · exact Or.inr ⟨hcc,
                List.mem_cons_of_mem _ (List.mem_cons_of_mem _ hmem), hty⟩
        · rw [transMaps_setTransMap_other st conn c _ hcc] at he
          rcases hmain c e he with h0 | ⟨hc, _, _⟩
          · exact Or.inl h0
          · exact absurd hc hcc
      · intro x hx
        rcases List.mem_cons.mp hx with hx | hx
        · rw [hx]
          exact next_vhandle_type _ hcnt
        · rcases List.mem_cons.mp hx with hx | hx
          · rw [hx]
            exact next_vhandle_type _ hcnt
          · exact hts x hx
      · intro c
        by_cases hcc : c = conn
        · rw [hcc, transMaps_setTransMap_same]
          dsimp only
          rw [List.map_cons, List.nodup_cons]
          constructor
          · intro hmem
            rw [List.mem_map] at hmem
            obtain ⟨e, he, hev⟩ := hmem
            rw [List.mem_filter] at he
            have := he.2
            simp [hev] at this
          · have hsub : List.Sublist
                (((getTransMap st conn).entries.filter
                  (fun x => x.vhandle
                    != (TPM2_HT_TRANSIENT <<< TPM2_HR_SHIFT)
                        + (getTransMap st conn).counter)).map (fun e => e.vhandle))
                ((getTransMap st conn).entries.map (fun e => e.vhandle)) :=
              List.Sublist.map _ (List.filter_sublist _)
            exact (hnd conn).sublist hsub
        · rw [transMaps_setTransMap_other st conn c _ hcc]
          exact hnd c
    · by_cases hhs : h >>> TPM2_HR_SHIFT = TPM2_HT_HMAC_SESSION ∨
          h >>> TPM2_HR_SHIFT = TPM2_HT_POLICY_SESSION
      · have heq : resource_manager_create_context_mapping st r ts
            = (r, create_context_mapping_session st r h, ts) := by
          simp [resource_manager_create_context_mapping, hh, hht, hhs]
        rw [heq]
        exact LoadInv_of_transMaps_eq conn ts st _
          (create_context_mapping_session_transMaps st r h) ⟨hmain, hts, hnd⟩
      · have heq : resource_manager_create_context_mapping st r ts = (r, st, ts) := by
          simp [resource_manager_create_context_mapping, hh, hht, hhs]
        rw [heq]
        exact ⟨hmain, hts, hnd⟩

/-- C3 amended: at the boundary after processing any single command, every
HandleMapEntry of every connection has physical handle 0 provided every
context_saveflush call succeeds — together with the AccessBroker contract
(loads return transient-range physical handles, responses carry the
command's connection) and map well-formedness (unique vhandle keys, no
vhandle-counter rollover).  The unqualified claim is false: when a
context_saveflush fails the entry keeps its nonzero physical handle (see
the counterexample). -/
theorem C3_phandle_zero (B : Broker) (st : RMState) (cmd : Tpm2Command)
    (hz : AllPhandlesZero st) (hnd : MapKeysNodup st)
    (hcnt : (st.transMaps cmd.connection).counter < 2 ^ 24)
    (hsf : ∀ p, ∃ ctx, B.saveFlush p = Except.ok ctx)
    (hcl : ∀ ctx p, B.contextLoad ctx = Except.ok p →
        p >>> TPM2_HR_SHIFT = TPM2_HT_TRANSIENT)
    (hcn : ∀ c r, B.send c = Except.ok r → r.connection = c.connection) :
    AllPhandlesZero (resource_manager_process_tpm2_command B st cmd).2.1 := by
  rcases hsp : command_special_processing st cmd with ⟨o, st1⟩
  have hpres : AllPhandlesZero st1 ∧ MapKeysNodup st1 := by
    have h0 := special_preserves st cmd hz hnd
    rw [hsp] at h0
    exact h0
  have hcnt1 : (st1.transMaps cmd.connection).counter < 2 ^ 24 := by
    have h0 := special_counter st cmd cmd.connection
    rw [hsp] at h0
    dsimp only at h0
    rw [h0]
    exact hcnt
  by_cases hq : resource_manager_quota_check st cmd = TSS2_RC_SUCCESS
  · cases o with
    | some resp =>
      rw [process_eq_special_some B st cmd resp st1 hq hsp, rm_finish_nil_state]
      intro c e he
      rw [rm_save_sessions_transMaps] at he
      exact hpres.1 c e he
    | none =>
      have hlpinv := rm_load_phase_inv B st1 cmd cmd.connection rfl hcl hpres.1 hpres.2
      cases hsd : B.send (rm_load_phase B st1 cmd).2.1 with
      | error rc =>
        rw [process_eq_send_error B st cmd st1 rc hq hsp hsd, rm_finish_state]
        apply post_process_allzero B _ cmd.connection cmd.attrs _ hsf
        exact LoadInv_of_transMaps_eq _ _ _ _ (rm_save_sessions_transMaps B _) hlpinv.1
      | ok r =>
        rw [process_eq_send_ok B st cmd st1 r hq hsp hsd, rm_finish_state]
        have hrc : r.connection = cmd.connection := by
          rw [hcn _ r hsd, (rm_load_phase_cmd B st1 cmd).2]
        have hcm := create_mapping_inv (rm_load_phase B st1 cmd).1 r
          (rm_load_phase B st1 cmd).2.2.1 cmd.connection hrc
          (by rw [hlpinv.2]; exact hcnt1) hlpinv.1
        apply post_process_allzero B _ cmd.connection cmd.attrs _ hsf
        exact LoadInv_of_transMaps_eq _ _ _ _ (rm_save_sessions_transMaps B _) hcm
  · rw [process_eq_quota_fail B st cmd hq, rm_finish_nil_state]
    intro c e he
    rw [rm_save_sessions_transMaps] at he
    exact hz c e he

/-- Broker for the C3 counterexample: context loads succeed with transient
phandle 0x80000000 but every context_saveflush fails (rc 0x100). -/
def C3B : Broker :=
  ⟨fun c => Except.ok ⟨c.connection, TSS2_RC_SUCCESS, none, [], false, []⟩,
   fun _ => Except.ok 0x80000000, fun _ => Except.error 0x100, fun _ => 0⟩

/-- Quiescent state for C3: connection 1 owns one saved transient entry. -/
def C3st : RMState :=
  ⟨⟨[], [], 2⟩, fun c => if c = 1 then ⟨[⟨0x80000001, 0, []⟩], 3, 2⟩ else ⟨[], 3, 1⟩⟩

/-- Command for C3: a plain object command referencing vhandle 0x80000001. -/
def C3cmd : Tpm2Command :=
  ⟨0x173, 1, [0x80000001], [], Except.error 0, Except.error 0, 0, [], 0, 0, 0, 0⟩

/-- C3 as written is false on the saveflush-failure path: starting from a
quiescent state where every phandle is 0, one command whose loaded transient
fails its context_saveflush ends with that entry still holding physical
handle 0x80000000, so the invariant does not hold at the next boundary. -/
theorem C3_saveflush_failure_counterexample :
    AllPhandlesZero C3st
    ∧ (⟨0x80000001, 0x80000000, []⟩ : HandleMapEntry)
        ∈ (((resource_manager_process_tpm2_command C3B C3st C3cmd).2.1).transMaps 1).entries
    ∧ ¬ AllPhandlesZero (resource_manager_process_tpm2_command C3B C3st C3cmd).2.1 := by
  refine ⟨?_, by decide, ?_⟩
  · intro c e he
    simp only [C3st] at he
    by_cases hc : c = 1
    · rw [if_pos hc] at he
      rcases List.mem_cons.mp he with he | he
      · rw [he]
      · exact absurd he (List.not_mem_nil _)
    · rw [if_neg hc] at he
      exact absurd he (List.not_mem_nil _)
  · intro hall
    have := hall 1 ⟨0x80000001, 0x80000000, []⟩ (by decide)
    simp at this

/-- Broker for the C3 witness: loads return the transient phandle
0x80000000, saveflushes succeed, responses carry the command's connection. -/
def C3wB : Broker :=
  ⟨fun c => Except.ok ⟨c.connection, TSS2_RC_SUCCESS, none, [], false, []⟩,
   fun _ => Except.ok 0x80000000, fun _ => Except.ok [6, 6], fun _ => 0⟩

/-- Witness for the amended C3 at a concrete state and command. -/
theorem C3_phandle_zero_witness :
    AllPhandlesZero C3st
    ∧ MapKeysNodup C3st
    ∧ (C3st.transMaps C3cmd.connection).counter < 2 ^ 24
    ∧ AllPhandlesZero (resource_manager_process_tpm2_command C3wB C3st C3cmd).2.1 := by
  have hz : AllPhandlesZero C3st := by
    intro c e he
    simp only [C3st] at he
    by_cases hc : c = 1
    · rw [if_pos hc] at he
      rcases List.mem_cons.mp he with he | he
      · rw [he]
      · exact absurd he (List.not_mem_nil _)
    · rw [if_neg hc] at he
      exact absurd he (List.not_mem_nil _)
  have hnd : MapKeysNodup C3st := by
    intro c
    simp only [C3st]
    by_cases hc : c = 1
    · rw [if_pos hc]
      decide
    · rw [if_neg hc]
      decide
  refine ⟨hz, hnd, by decide, ?_⟩
  exact C3_phandle_zero C3wB C3st C3cmd hz hnd (by decide)
    (fun p => ⟨[6, 6], rfl⟩)
    (by
      intro ctx p h
      cases h
      decide)
    (by
      intro c r h
      cases h
      rfl)
